import Mathlib

/-!
# Ballistica: frame definitions, the SDL app adapter and Python context calls

A shallow embedding of

* `src/ballistica/base/graphics/support/frame_def.h` (`FrameDef`),
* `src/ballistica/base/app_adapter/app_adapter_sdl.h` (`AppAdapterSDL`),
* `src/ballistica/base/python/support/python_context_call.cc`
  (`PythonContextCall`),

followed by theorems about them.  Objects that C++ addresses by pointer
(`Asset`, `Runnable`, `JoystickInput`, `PythonContextCall`) are named by a
natural number; mutable objects reachable from several places live in an
explicit store that is passed through every operation.
-/

namespace Ballistica

/-! ## FrameDef (frame_def.h) -/

/-- Identity of an `Asset` object, the target of an `Object::Ref<Asset>`. -/
abbrev AssetId := Nat

/-- Modelled from the spec: `Asset` (asset.h is not part of the sources).  The
only part of an asset that `FrameDef` touches is its per-asset "last frame
number touched" stamp, read by `last_frame_def_num()` and written by
`set_last_frame_def_num()`; the store maps every asset to its stamp. -/
abbrev AssetStamps := AssetId → Int

/-- Reading of `component->last_frame_def_num()`. -/
def last_frame_def_num (stamps : AssetStamps) (c : AssetId) : Int := stamps c

/-- Effect of `component->set_last_frame_def_num(val)`. -/
def set_last_frame_def_num (stamps : AssetStamps) (c : AssetId) (val : Int) : AssetStamps :=
  fun a => if a = c then val else stamps a

/-- The fields of `FrameDef` that its inline members in frame_def.h read or
write without going through a render pass or a math type.  The defaults are
the in-class initialisers (`{}`), i.e. zero, false and empty vectors.
`int64_t` and `millisecs_t` values are integers; they are only stored and
compared, never computed with, so no wrap-around can occur. -/
structure FrameDef where
  needs_clear_ : Bool := false
  rendering_ : Bool := false
  mesh_data_creates_ : List Nat := []
  mesh_data_destroys_ : List Nat := []
  media_components_ : List AssetId := []
  app_time_millisecs_ : Int := 0
  display_time_millisecs_ : Int := 0
  display_time_elapsed_millisecs_ : Int := 0
  frame_number_ : Int := 0
  deriving DecidableEq, Repr

namespace FrameDef

/-- Accessor `frame_number()`. -/
def frame_number (f : FrameDef) : Int := f.frame_number_

/-- Accessor `media_components()`. -/
def media_components (f : FrameDef) : List AssetId := f.media_components_

/-- Setter `set_frame_number(val)`. -/
def set_frame_number (f : FrameDef) (val : Int) : FrameDef :=
  { f with frame_number_ := val }

/-- `FrameDef::AddComponent`: add a reference to the component only if its
stamp differs from this frame's number; then stamp it and push it back. -/
def AddComponent (f : FrameDef) (stamps : AssetStamps) (c : AssetId) :
    FrameDef × AssetStamps :=
  if last_frame_def_num stamps c ≠ f.frame_number_ then
    ({ f with media_components_ := f.media_components_ ++ [c] },
      set_last_frame_def_num stamps c f.frame_number_)
  else
    (f, stamps)

/-- Accessor `real_time()`: the real time this frame originated at. -/
def real_time (f : FrameDef) : Int := f.app_time_millisecs_

/-- Accessor `display_time_millisecs()`. -/
def display_time_millisecs (f : FrameDef) : Int := f.display_time_millisecs_

/-- Accessor `display_time_elapsed_millisecs()`. -/
def display_time_elapsed_millisecs (f : FrameDef) : Int := f.display_time_elapsed_millisecs_

/-- Accessor `needs_clear()`. -/
def needs_clear (f : FrameDef) : Bool := f.needs_clear_

/-- Accessor `mesh_data_creates()`. -/
def mesh_data_creates (f : FrameDef) : List Nat := f.mesh_data_creates_

/-- Accessor `mesh_data_destroys()`. -/
def mesh_data_destroys (f : FrameDef) : List Nat := f.mesh_data_destroys_

/-- Setter `set_needs_clear(val)`. -/
def set_needs_clear (f : FrameDef) (val : Bool) : FrameDef :=
  { f with needs_clear_ := val }

/-- Setter `set_display_time_elapsed_millisecs(val)`. -/
def set_display_time_elapsed_millisecs (f : FrameDef) (val : Int) : FrameDef :=
  { f with display_time_elapsed_millisecs_ := val }

/-- Setter `set_app_time_millisecs(val)`. -/
def set_app_time_millisecs (f : FrameDef) (val : Int) : FrameDef :=
  { f with app_time_millisecs_ := val }

/-- Setter `set_display_time_millisecs(val)`. -/
def set_display_time_millisecs (f : FrameDef) (val : Int) : FrameDef :=
  { f with display_time_millisecs_ := val }

/-- The timing fields and the clear flag, named by their getter. -/
inductive FrameField where
  | frame_number
  | real_time
  | display_time_millisecs
  | display_time_elapsed_millisecs
  | needs_clear
  deriving DecidableEq, Repr

/-- A value passed to a setter or returned by a getter: an integer
(`int64_t`, `millisecs_t`) or a `bool`. -/
inductive FrameValue where
  | int (val : Int)
  | bool (val : Bool)
  deriving DecidableEq, Repr

/-- The getter of a field, called on a frame. -/
def get : FrameField → FrameDef → FrameValue
  | .frame_number, f => .int f.frame_number
  | .real_time, f => .int f.real_time
  | .display_time_millisecs, f => .int f.display_time_millisecs
  | .display_time_elapsed_millisecs, f => .int f.display_time_elapsed_millisecs
  | .needs_clear, f => .bool f.needs_clear

/-- A call of one of the setters or getters on a frame. -/
inductive FrameAccess where
  | set_frame_number (val : Int)
  | set_app_time_millisecs (val : Int)
  | set_display_time_millisecs (val : Int)
  | set_display_time_elapsed_millisecs (val : Int)
  | set_needs_clear (val : Bool)
  | get (field : FrameField)
  deriving DecidableEq, Repr

/-- Effect of a call: the frame afterwards and, for a getter, what it
returned.  The getters are `const` members that return the field. -/
def access (f : FrameDef) : FrameAccess → FrameDef × Option FrameValue
  | .set_frame_number val => (f.set_frame_number val, none)
  | .set_app_time_millisecs val => (f.set_app_time_millisecs val, none)
  | .set_display_time_millisecs val => (f.set_display_time_millisecs val, none)
  | .set_display_time_elapsed_millisecs val => (f.set_display_time_elapsed_millisecs val, none)
  | .set_needs_clear val => (f.set_needs_clear val, none)
  | .get field => (f, some (get field f))

/-- The frame after a sequence of calls, left to right. -/
def accesses (f : FrameDef) : List FrameAccess → FrameDef
  | [] => f
  | c :: rest => accesses (access f c).1 rest

/-- The setter that matches each getter, read off a call: the field the call
is the setter of and the value passed; nothing for a getter call. -/
def passed : FrameAccess → Option (FrameField × FrameValue)
  | .set_frame_number val => some (.frame_number, .int val)
  | .set_app_time_millisecs val => some (.real_time, .int val)
  | .set_display_time_millisecs val => some (.display_time_millisecs, .int val)
  | .set_display_time_elapsed_millisecs val => some (.display_time_elapsed_millisecs, .int val)
  | .set_needs_clear val => some (.needs_clear, .bool val)
  | .get _ => none

/-- The last value passed to the setter of `field` in a sequence of calls that
starts with `current` as the value in force. -/
def lastPassed (field : FrameField) (current : FrameValue) : List FrameAccess → FrameValue
  | [] => current
  | c :: rest =>
    match passed c with
    | some (g, val) => if g = field then lastPassed field val rest else lastPassed field current rest
    | none => lastPassed field current rest

/-- A step in the life of one frame `f` that shares its assets with other
frames: `f.AddComponent(c)`, or `g.AddComponent(c)` on another frame `g`. -/
inductive FrameStep where
  | add (c : AssetId)
  | other (g : FrameDef) (c : AssetId)
  deriving DecidableEq, Repr

/-- Effect of a sequence of steps on the frame `f` and on the stamps.  A call
on another frame reaches `f` only through the stamp it leaves on the asset. -/
def frameSteps (f : FrameDef) (stamps : AssetStamps) :
    List FrameStep → FrameDef × AssetStamps
  | [] => (f, stamps)
  | .add c :: rest =>
    let r := AddComponent f stamps c
    frameSteps r.1 r.2 rest
  | .other g c :: rest => frameSteps f (AddComponent g stamps c).2 rest

/-- No call on another frame re-stamps an asset that `f` lists already with a
number different from `f`'s: every `other g c` step has `g` numbered like `f`
or `c` not yet listed by `f`. -/
def undisturbed (f : FrameDef) (stamps : AssetStamps) : List FrameStep → Bool
  | [] => true
  | .add c :: rest =>
    let r := AddComponent f stamps c
    undisturbed r.1 r.2 rest
  | .other g c :: rest =>
    (decide (g.frame_number_ = f.frame_number_) || decide (c ∉ f.media_components_))
      && undisturbed f (AddComponent g stamps c).2 rest

/-- Invariant behind the deduplication: the list has no duplicate and every
listed asset carries this frame's number as its stamp. -/
def Stamped (f : FrameDef) (stamps : AssetStamps) : Prop :=
  f.media_components_.Nodup ∧ ∀ a ∈ f.media_components_, stamps a = f.frame_number_

end FrameDef

/-! ## AppAdapterSDL (app_adapter_sdl.h)

The header declares the class; the member-function bodies
(app_adapter_sdl.cc) are not part of the sources and are modelled from the
specification. -/

/-- Identity of a `Runnable` object (a `Runnable*`). -/
abbrev Runnable := Nat

/-- Identity of a `JoystickInput` object: the logical input handle. -/
abbrev JoystickInput := Nat

/-- Data members of `AppAdapterSDL` with their in-class initialisers, followed
by the collaborator state that its member functions act on: the main-thread
event queue, the allocation count of joystick inputs, the add/remove calls
pushed to the input subsystem and the quit transitions requested. -/
structure AppAdapterSDL where
  done_ : Bool := false
  fullscreen_ : Bool := false
  vsync_actually_enabled_ : Bool := false
  debug_log_sdl_frame_timing_ : Bool := false
  hidden_ : Bool := false
  strict_graphics_context_ : Bool := false
  strict_graphics_allowed_ : Bool := false
  strict_graphics_calls_ : List Runnable := []
  max_fps_ : Int := 60
  oversleep_ : Int := 0
  sdl_joysticks_ : List (Option JoystickInput) := []
  last_windowevent_close_time_ : Int := 0
  main_thread_runnables : List Runnable := []
  joystick_inputs_created : Nat := 0
  input_device_calls : List (Bool × JoystickInput) := []
  quit_transitions : Nat := 0
  deriving DecidableEq, Repr

namespace AppAdapterSDL

/-- Modelled from the spec: `AppAdapterSDL::DoPushMainThreadRunnable` (body not
in the sources): the runnable is appended to the main thread's event queue. -/
def DoPushMainThreadRunnable (a : AppAdapterSDL) (runnable : Runnable) : AppAdapterSDL :=
  { a with main_thread_runnables := a.main_thread_runnables ++ [runnable] }

/-- Modelled from the spec: `AppAdapterSDL::InGraphicsContext` (body not in the
sources).  With strictness off graphics code may run any time in the main
thread; with it on, only in the main thread and inside the draw window.
`in_main_thread` is the caller's thread. -/
def InGraphicsContext (a : AppAdapterSDL) (in_main_thread : Bool) : Bool :=
  if a.strict_graphics_context_ then
    in_main_thread && a.strict_graphics_allowed_
  else
    in_main_thread

/-- Modelled from the spec: `AppAdapterSDL::DoPushGraphicsContextRunnable`
(body not in the sources): `enqueue(op)`, a thread-safe append to the pending
sequence in strict mode; with strictness off the call is simply pushed to the
main thread. -/
def DoPushGraphicsContextRunnable (a : AppAdapterSDL) (runnable : Runnable) : AppAdapterSDL :=
  if a.strict_graphics_context_ then
    { a with strict_graphics_calls_ := a.strict_graphics_calls_ ++ [runnable] }
  else
    DoPushMainThreadRunnable a runnable

/-- Several `DoPushGraphicsContextRunnable` calls in a row. -/
def PushGraphicsContextRunnables (a : AppAdapterSDL) : List Runnable → AppAdapterSDL
  | [] => a
  | r :: rs => PushGraphicsContextRunnables (DoPushGraphicsContextRunnable a r) rs

/-- What one drain did: the calls it ran, in order; for each of them the value
of `InGraphicsContext()` on the main thread while it ran; and the runnables
that were pushed while the drain was running its calls. -/
structure DrainLog where
  ran : List Runnable := []
  in_context : List Bool := []
  pushed : List Runnable := []
  deriving DecidableEq, Repr

/-- Modelled from the spec: the loop of `drain_and_run()` that runs each
swapped-out operation in enqueue order outside the lock.  While the call at
position `i` runs, the runnables `during[i]` are pushed, by the call itself or
by another thread (none when `during` is shorter). -/
def RunCalls (a : AppAdapterSDL) (log : DrainLog) :
    List Runnable → List (List Runnable) → AppAdapterSDL × DrainLog
  | [], _ => (a, log)
  | call :: calls, during =>
    RunCalls (PushGraphicsContextRunnables a (during.headD []))
      { ran := log.ran ++ [call],
        in_context := log.in_context ++ [InGraphicsContext a true],
        pushed := log.pushed ++ during.headD [] }
      calls during.tail

/-- Modelled from the spec: `AppAdapterSDL::TryRender` with its
`ScopedAllowGraphics_` guard (bodies not in the sources).  In strict mode the
draw window is entered (`strict_graphics_allowed_` set), the pending sequence
is swapped out under the mutex, each swapped-out call is run in order, the
frame is rendered and the window is left again.  With strictness off nothing
is ever enqueued and the call just renders.  Rendering itself is opaque. -/
def TryRender (a : AppAdapterSDL) (during : List (List Runnable)) :
    AppAdapterSDL × DrainLog :=
  if a.strict_graphics_context_ then
    let calls := a.strict_graphics_calls_
    let r := RunCalls
      { a with strict_graphics_allowed_ := true, strict_graphics_calls_ := [] } {} calls during
    ({ r.1 with strict_graphics_allowed_ := false }, r.2)
  else
    (a, {})

/-- One step of a run of the graphics-context queue: a push from outside a
drain, or a `TryRender` call together with what is pushed while it drains. -/
inductive GraphicsStep where
  | push (runnable : Runnable)
  | render (during : List (List Runnable))
  deriving DecidableEq, Repr

/-- An adapter together with the history of its graphics-context queue: every
runnable handed to `DoPushGraphicsContextRunnable` so far, in call order; the
batch of calls run by each `TryRender` so far; and the value of
`InGraphicsContext()` seen by every call that was run. -/
structure GraphicsHistory where
  adapter : AppAdapterSDL
  pushed : List Runnable := []
  drains : List (List Runnable) := []
  in_context : List Bool := []
  deriving DecidableEq, Repr

/-- Effect of one step on the adapter and its history. -/
def graphicsStep (h : GraphicsHistory) : GraphicsStep → GraphicsHistory
  | .push r =>
    { h with adapter := DoPushGraphicsContextRunnable h.adapter r, pushed := h.pushed ++ [r] }
  | .render during =>
    let r := TryRender h.adapter during
    { adapter := r.1,
      pushed := h.pushed ++ r.2.pushed,
      drains := h.drains ++ [r.2.ran],
      in_context := h.in_context ++ r.2.in_context }

/-- A finite sequence of steps, left to right. -/
def graphicsSteps (h : GraphicsHistory) : List GraphicsStep → GraphicsHistory
  | [] => h
  | s :: ss => graphicsSteps (graphicsStep h s) ss

/-- The runnables pushed while a drain of `n` calls runs: the first `n`
entries of `during`, in order. -/
def pushedDuring (n : Nat) (during : List (List Runnable)) : List Runnable :=
  (during.take n).flatten

/-! ### Input devices -/

/-- Store `input` at position `index` of the joystick vector, growing the
vector with empty slots when it is too short. -/
def setSlot (v : List (Option JoystickInput)) (index : Nat) (input : Option JoystickInput) :
    List (Option JoystickInput) :=
  if index < v.length then v.set index input
  else v ++ List.replicate (index - v.length) none ++ [input]

/-- Modelled from the spec: `AppAdapterSDL::GetSDLJoystickInput_` (body not in
the sources): lookup of the logical handle for an OS device index; an index
that is not mapped, inside or beyond the vector, gives not-found. -/
def GetSDLJoystickInput_ (a : AppAdapterSDL) (index : Nat) : Option JoystickInput :=
  a.sdl_joysticks_[index]?.join

/-- Modelled from the spec: `AppAdapterSDL::AddSDLInputDevice_` (body not in
the sources): insert the handle into the mapping and notify the producer
thread of the new device. -/
def AddSDLInputDevice_ (a : AppAdapterSDL) (input : JoystickInput) (index : Nat) :
    AppAdapterSDL :=
  { a with
    sdl_joysticks_ := setSlot a.sdl_joysticks_ index (some input),
    input_device_calls := a.input_device_calls ++ [(true, input)] }

/-- Modelled from the spec: `AppAdapterSDL::RemoveSDLInputDevice_` (body not in
the sources): free the slot and notify the producer thread that the handle is
now invalid. -/
def RemoveSDLInputDevice_ (a : AppAdapterSDL) (index : Nat) : AppAdapterSDL :=
  match GetSDLJoystickInput_ a index with
  | none => a
  | some input =>
    { a with
      sdl_joysticks_ := setSlot a.sdl_joysticks_ index none,
      input_device_calls := a.input_device_calls ++ [(false, input)] }

/-- Modelled from the spec: `AppAdapterSDL::OnSDLJoystickAdded_` (body not in
the sources), `on_device_added(os_index)`: ignored when the index is already
mapped; otherwise a new logical handle is allocated (the next
`JoystickInput` object ever created) and added. -/
def OnSDLJoystickAdded_ (a : AppAdapterSDL) (index : Nat) : AppAdapterSDL :=
  match GetSDLJoystickInput_ a index with
  | some _ => a
  | none =>
    AddSDLInputDevice_ { a with joystick_inputs_created := a.joystick_inputs_created + 1 }
      a.joystick_inputs_created index

/-- Modelled from the spec: `AppAdapterSDL::OnSDLJoystickRemoved_` (body not in
the sources), `on_device_removed(os_index)`: ignored when the index is not
mapped; otherwise the handle is removed. -/
def OnSDLJoystickRemoved_ (a : AppAdapterSDL) (index : Nat) : AppAdapterSDL :=
  RemoveSDLInputDevice_ a index

/-! ### Events -/

/-- The SDL events the adapter's event handler distinguishes here. -/
inductive SDLEvent where
  | windowClose
  | joyDeviceAdded (index : Nat)
  | joyDeviceRemoved (index : Nat)
  | other
  deriving DecidableEq, Repr

/-- Modelled from the spec: `AppAdapterSDL::HandleSDLEvent_` (body not in the
sources).  A window-close event within the debounce window of the last
accepted close is a duplicate and is ignored; otherwise its time is recorded
and a quit transition is requested.  Device events go to the registry.
`debounce` is the debounce window and `now` the time of handling, both in
milliseconds. -/
def HandleSDLEvent_ (debounce now : Int) (a : AppAdapterSDL) : SDLEvent → AppAdapterSDL
  | .windowClose =>
    if now - a.last_windowevent_close_time_ < debounce then a
    else
      { a with
        last_windowevent_close_time_ := now,
        quit_transitions := a.quit_transitions + 1 }
  | .joyDeviceAdded index => OnSDLJoystickAdded_ a index
  | .joyDeviceRemoved index => OnSDLJoystickRemoved_ a index
  | .other => a

/-- Every mapped logical handle is one that was allocated earlier. -/
def JoysticksAllocated (a : AppAdapterSDL) : Prop :=
  ∀ index input, GetSDLJoystickInput_ a index = some input → input < a.joystick_inputs_created

/-! ### Frame pacing -/

/-- Modelled from the spec: the target frame interval in whole microseconds
for a configured maximum frame rate. -/
def frameInterval (max_fps : Int) : Int := 1000000 / max_fps

/-- Modelled from the spec: `AppAdapterSDL::SleepUntilNextEventCycle_` (body
not in the sources).  With vsync off and a maximum frame rate configured, the
time elapsed since the cycle started is computed and, if it is less than the
target frame interval, the remaining duration less the oversleep carried over
from the previous iteration is slept (when positive); the sleep primitive
returns `overshoot` microseconds late.  `oversleep_` then records how far
past the target time `now + duration` the step ended.  `now` is the time at
entry; the result is the adapter and the time at return. -/
def SleepUntilNextEventCycle_ (a : AppAdapterSDL) (cycle_start_time now overshoot : Int) :
    AppAdapterSDL × Int :=
  if a.vsync_actually_enabled_ || decide (a.max_fps_ ≤ 0) then
    (a, now)
  else
    let elapsed := now - cycle_start_time
    let duration := frameInterval a.max_fps_ - elapsed - a.oversleep_
    let woke :=
      if elapsed < frameInterval a.max_fps_ ∧ 0 < duration then now + duration + overshoot
      else now
    ({ a with oversleep_ := woke - (now + duration) }, woke)

/-- A run of pacing steps with zero processing cost: every cycle reaches the
pacing step at the very time it started, and the next cycle starts when the
step returns.  One overshoot per iteration is supplied. -/
def pacedRun (a : AppAdapterSDL) (start : Int) : List Int → AppAdapterSDL × Int
  | [] => (a, start)
  | overshoot :: rest =>
    let r := SleepUntilNextEventCycle_ a start start overshoot
    pacedRun r.1 r.2 rest

/-- Invariant of a strict-mode run that started at adapter `a0`: the adapter
is strict and outside the draw window, nothing went to the main-thread queue,
the batches run so far followed by the pending list are what was pending at
the start followed by the pushed runnables in push order, and every call
that was run saw `InGraphicsContext()` true. -/
def StrictInv (a0 : AppAdapterSDL) (h : GraphicsHistory) : Prop :=
  h.adapter.strict_graphics_context_ = true
    ∧ h.adapter.strict_graphics_allowed_ = false
    ∧ h.adapter.main_thread_runnables = a0.main_thread_runnables
    ∧ h.drains.flatten ++ h.adapter.strict_graphics_calls_
        = a0.strict_graphics_calls_ ++ h.pushed
    ∧ ∀ b ∈ h.in_context, b = true

/-- Invariant of a run with strictness off that started at adapter `a0`: the
pending list is never touched, no call is run by `TryRender`, and the pushed
runnables are exactly what was appended to the main-thread queue. -/
def LenientInv (a0 : AppAdapterSDL) (h : GraphicsHistory) : Prop :=
  h.adapter.strict_graphics_context_ = false
    ∧ h.adapter.strict_graphics_calls_ = a0.strict_graphics_calls_
    ∧ h.adapter.main_thread_runnables = a0.main_thread_runnables ++ h.pushed
    ∧ h.drains.flatten = []

end AppAdapterSDL

/-! ## PythonContextCall (python_context_call.cc)

Everything here happens in the logic thread, as the source demands
(`BA_PRECONDITION(g_base->InLogicThread())`). -/

/-- Identity of a Python object (a `PyObject*`). -/
abbrev PyObject := Nat

/-- Identity of a `PythonContextCall` object (a `PythonContextCall*`). -/
abbrev CallId := Nat

/-- Data members of `PythonContextCall` used by python_context_call.cc (the
class declaration, python_context_call.h, is not part of the sources).
`object_` is the held callable, `none` once released; `context_expired` is
the answer of `context_state_.IsExpired()`. -/
structure PythonContextCall where
  dead_ : Bool := false
  object_ : Option PyObject := none
  context_state_ : Nat := 0
  context_expired : Bool := false
  schedule_count_ : Int := 0
  deriving DecidableEq, Repr

/-- A call pushed to the logic thread's event loop by one of the `Schedule`
members: the object it refers to, the args it captured (`none` for the
overloads without args) and whether it holds a weak reference. -/
structure QueuedCall where
  target : CallId
  args : Option PyObject
  weak : Bool
  deriving DecidableEq, Repr

/-- The state python_context_call.cc acts on: the `PythonContextCall` objects
by identity, the static `current_call_` (`none` is nullptr), the current
context set by `ScopedSetContext`, the logic thread's event loop, and three
logs: every `PyObject_Call` made (callable and args), every call whose
exception was printed and cleared, and how many times the assertion
`schedule_count_ >= 0` of a pushed call was found false. -/
structure PyWorld where
  calls : CallId → PythonContextCall
  current_call_ : Option CallId := none
  current_context : Nat := 0
  event_loop : List QueuedCall := []
  py_calls : List (Option PyObject × Option PyObject) := []
  errors_printed : List CallId := []
  asserts_failed : Nat := 0

namespace PyWorld

/-- Replace the object `this` in the store. -/
def setCall (w : PyWorld) (this : CallId) (c : PythonContextCall) : PyWorld :=
  { w with calls := fun i => if i = this then c else w.calls i }

/-- `PythonContextCall::MarkDead`: set `dead_` and release the callable. -/
def MarkDead (w : PyWorld) (this : CallId) : PyWorld :=
  w.setCall this { w.calls this with dead_ := true, object_ := none }

/-- The context of `this` goes away: `context_state_.IsExpired()` is true from
now on. -/
def ExpireContext (w : PyWorld) (this : CallId) : PyWorld :=
  w.setCall this { w.calls this with context_expired := true }

/-- `PythonContextCall::Run(args)`.  `callee` is what the `PyObject_Call` of
the held callable does to the state in this invocation, and whether it
returned a result (`true`) or raised (`false`). -/
def Run (w : PyWorld) (this : CallId) (args : Option PyObject)
    (callee : PyWorld → PyWorld × Bool) : PyWorld :=
  if (w.calls this).dead_ || (w.calls this).context_expired then
    w
  else
    let prev_context := w.current_context
    let prev_call := w.current_call_
    let r := callee
      { w with
        current_context := (w.calls this).context_state_,
        current_call_ := some this,
        py_calls := w.py_calls ++ [((w.calls this).object_, args)] }
    let w1 : PyWorld := { r.1 with current_call_ := prev_call }
    let w2 : PyWorld :=
      if r.2 then w1 else { w1 with errors_printed := w1.errors_printed ++ [this] }
    { w2 with current_context := prev_context }

/-- `PythonContextCall::Schedule()` and `Schedule(args)`: count the pending
run and push a call holding a strong reference. -/
def Schedule (w : PyWorld) (this : CallId) (args : Option PyObject) : PyWorld :=
  let w1 := w.setCall this
    { w.calls this with schedule_count_ := (w.calls this).schedule_count_ + 1 }
  { w1 with event_loop := w1.event_loop ++ [{ target := this, args := args, weak := false }] }

/-- `PythonContextCall::ScheduleOnce()` and `ScheduleOnce(args)`. -/
def ScheduleOnce (w : PyWorld) (this : CallId) (args : Option PyObject) : PyWorld :=
  if (w.calls this).schedule_count_ > 0 then w else Schedule w this args

/-- `PythonContextCall::ScheduleWeak()` and `ScheduleWeak(args)`: as
`Schedule`, the pushed call holding a weak reference. -/
def ScheduleWeak (w : PyWorld) (this : CallId) (args : Option PyObject) : PyWorld :=
  let w1 := w.setCall this
    { w.calls this with schedule_count_ := (w.calls this).schedule_count_ + 1 }
  { w1 with event_loop := w1.event_loop ++ [{ target := this, args := args, weak := true }] }

/-- `PythonContextCall::ScheduleWeakOnce()` and `ScheduleWeakOnce(args)`. -/
def ScheduleWeakOnce (w : PyWorld) (this : CallId) (args : Option PyObject) : PyWorld :=
  if (w.calls this).schedule_count_ > 0 then w else ScheduleWeak w this args

/-- The first two statements of the call pushed by a `Schedule` member:
`schedule_count_--` and `assert(schedule_count_ >= 0)`; a false assertion is
counted. -/
def CountDown (w : PyWorld) (this : CallId) : PyWorld :=
  let w1 := w.setCall this
    { w.calls this with schedule_count_ := (w.calls this).schedule_count_ - 1 }
  if (w1.calls this).schedule_count_ ≥ 0 then w1
  else { w1 with asserts_failed := w1.asserts_failed + 1 }

/-- The event loop executes its next pushed call (the lambdas in the
`Schedule` members): unless the reference is weak and the object is gone
(`alive` false), `schedule_count_` is decremented, the assertion is checked
and the object is run. -/
def RunQueued (w : PyWorld) (alive : Bool) (callee : PyWorld → PyWorld × Bool) : PyWorld :=
  match w.event_loop with
  | [] => w
  | q :: rest =>
    let w1 : PyWorld := { w with event_loop := rest }
    if q.weak && !alive then w1
    else Run (CountDown w1 q.target) q.target q.args callee

/-- The state in which `Run` hands control to the callable: context set,
`current_call_` pointing at `this`, the `PyObject_Call` logged. -/
def RunEntry (w : PyWorld) (this : CallId) (args : Option PyObject) : PyWorld :=
  { w with
    current_context := (w.calls this).context_state_,
    current_call_ := some this,
    py_calls := w.py_calls ++ [((w.calls this).object_, args)] }

/-- Several `ScheduleOnce` calls in a row on one object, one per entry of the
list (`none` for the overload without args). -/
def ScheduleOnces (w : PyWorld) (this : CallId) : List (Option PyObject) → PyWorld
  | [] => w
  | args :: more => ScheduleOnces (ScheduleOnce w this args) this more

/-- The number of calls for `this` that are queued and not yet executed. -/
def pendingFor (w : PyWorld) (this : CallId) : Nat :=
  w.event_loop.countP (fun q => decide (q.target = this))

/-- The counter of every object equals the number of its queued calls, and no
assertion has failed. -/
def Counted (w : PyWorld) : Prop :=
  (∀ t, (w.calls t).schedule_count_ = (pendingFor w t : Int)) ∧ w.asserts_failed = 0

end PyWorld

/-- The four scheduling members. -/
inductive ScheduleKind where
  | schedule
  | scheduleOnce
  | scheduleWeak
  | scheduleWeakOnce
  deriving DecidableEq, Repr

/-- A finite script of operations on `PythonContextCall` objects: what the
logic thread does, and also what a Python callable does while it is being
called.  A script ends by returning a result (`ret true`) or by raising
(`ret false`).  `run` and `runQueued` carry the script of the callable they
invoke (`body`), so calls nest to any depth. -/
inductive PyScript where
  | ret (ok : Bool)
  | markDead (target : CallId) (rest : PyScript)
  | expireContext (target : CallId) (rest : PyScript)
  | run (target : CallId) (args : Option PyObject) (body rest : PyScript)
  | schedule (kind : ScheduleKind) (target : CallId) (args : Option PyObject)
      (rest : PyScript)
  | runQueued (alive : Bool) (body rest : PyScript)
  deriving DecidableEq, Repr

namespace PyWorld

/-- One of the four scheduling members, by kind. -/
def scheduleBy (w : PyWorld) : ScheduleKind → CallId → Option PyObject → PyWorld
  | .schedule => Schedule w
  | .scheduleOnce => ScheduleOnce w
  | .scheduleWeak => ScheduleWeak w
  | .scheduleWeakOnce => ScheduleWeakOnce w

/-- Execute a script: the final state and whether it returned or raised. -/
def exec : PyScript → PyWorld → PyWorld × Bool
  | .ret ok, w => (w, ok)
  | .markDead target rest, w => exec rest (MarkDead w target)
  | .expireContext target rest, w => exec rest (ExpireContext w target)
  | .run target args body rest, w => exec rest (Run w target args (exec body))
  | .schedule kind target args rest, w => exec rest (scheduleBy w kind target args)
  | .runQueued alive body rest, w => exec rest (RunQueued w alive (exec body))

end PyWorld

/-- Every queued call that the script executes, in nested callables too, is
executed on an object that still exists. -/
def PyScript.liveRuns : PyScript → Bool
  | .ret _ => true
  | .markDead _ rest => rest.liveRuns
  | .expireContext _ rest => rest.liveRuns
  | .run _ _ body rest => body.liveRuns && rest.liveRuns
  | .schedule _ _ _ rest => rest.liveRuns
  | .runQueued alive body rest => alive && body.liveRuns && rest.liveRuns

/-- A look at `current_call_` at one point of an execution: the object whose
`Run` invoked the callable that is executing at that point (`none` outside
any callable), and the value of `current_call_` there. -/
structure Sample where
  running : Option CallId
  current_call_ : Option CallId
  deriving DecidableEq, Repr

namespace PyWorld

/-- The samples taken along the execution of a script by the callable of
`running`: one before each operation and one where the script returns or
raises, and, nested at their place, those of every callable that a `Run`
inside the script really invokes. -/
def samples (running : Option CallId) : PyScript → PyWorld → List Sample
  | .ret _, w => [{ running := running, current_call_ := w.current_call_ }]
  | .markDead target rest, w =>
    { running := running, current_call_ := w.current_call_ }
      :: samples running rest (MarkDead w target)
  | .expireContext target rest, w =>
    { running := running, current_call_ := w.current_call_ }
      :: samples running rest (ExpireContext w target)
  | .run target args body rest, w =>
    { running := running, current_call_ := w.current_call_ }
      :: ((if (w.calls target).dead_ || (w.calls target).context_expired then []
            else samples (some target) body (RunEntry w target args))
          ++ samples running rest (Run w target args (exec body)))
  | .schedule kind target args rest, w =>
    { running := running, current_call_ := w.current_call_ }
      :: samples running rest (scheduleBy w kind target args)
  | .runQueued alive body rest, w =>
    { running := running, current_call_ := w.current_call_ }
      :: ((match w.event_loop with
            | [] => []
            | q :: qs =>
              if q.weak && !alive then []
              else if ((CountDown { w with event_loop := qs } q.target).calls q.target).dead_
                  || ((CountDown { w with event_loop := qs } q.target).calls
                      q.target).context_expired then []
              else samples (some q.target) body
                (RunEntry (CountDown { w with event_loop := qs } q.target) q.target q.args))
          ++ samples running rest (RunQueued w alive (exec body)))

end PyWorld

/-! ## Theorems: FrameDef -/

namespace FrameDef

theorem AddComponent_of_eq (f : FrameDef) (stamps : AssetStamps) (c : AssetId)
    (h : last_frame_def_num stamps c = f.frame_number_) :
    AddComponent f stamps c = (f, stamps) := by
  simp [AddComponent, h]

theorem AddComponent_of_ne (f : FrameDef) (stamps : AssetStamps) (c : AssetId)
    (h : last_frame_def_num stamps c ≠ f.frame_number_) :
    AddComponent f stamps c
      = ({ f with media_components_ := f.media_components_ ++ [c] },
          set_last_frame_def_num stamps c f.frame_number_) := by
  simp [AddComponent, h]

theorem AddComponent_stamp (f : FrameDef) (stamps : AssetStamps) (c : AssetId) :
    last_frame_def_num (AddComponent f stamps c).2 c = f.frame_number_ := by
  by_cases h : last_frame_def_num stamps c = f.frame_number_
  · rw [AddComponent_of_eq f stamps c h]; exact h
  · rw [AddComponent_of_ne f stamps c h]
    simp [last_frame_def_num, set_last_frame_def_num]

theorem AddComponent_frame_number (f : FrameDef) (stamps : AssetStamps) (c : AssetId) :
    (AddComponent f stamps c).1.frame_number_ = f.frame_number_ := by
  by_cases h : last_frame_def_num stamps c = f.frame_number_
  · rw [AddComponent_of_eq f stamps c h]
  · rw [AddComponent_of_ne f stamps c h]

/-- C1: `AddComponent` is idempotent within a frame: a second call for the
same asset right after the first leaves both the frame (hence
`media_components()`) and every stamp exactly as the first call left them; and
the two calls together append exactly one entry for the asset when its stamp
differed from the frame number before the first call (and none otherwise). -/
theorem C1_AddComponent_idempotent (f : FrameDef) (stamps : AssetStamps) (c : AssetId) :
    AddComponent (AddComponent f stamps c).1 (AddComponent f stamps c).2 c
        = AddComponent f stamps c
      ∧ (AddComponent (AddComponent f stamps c).1 (AddComponent f stamps c).2 c).1.media_components
          = (if last_frame_def_num stamps c ≠ f.frame_number
              then f.media_components ++ [c] else f.media_components)
      ∧ last_frame_def_num
          (AddComponent (AddComponent f stamps c).1 (AddComponent f stamps c).2 c).2 c
          = f.frame_number := by
  have key : AddComponent (AddComponent f stamps c).1 (AddComponent f stamps c).2 c
      = AddComponent f stamps c :=
    AddComponent_of_eq _ _ c
      ((AddComponent_stamp f stamps c).trans (AddComponent_frame_number f stamps c).symm)
  refine ⟨key, ?_, ?_⟩
  · rw [key]
    by_cases h : last_frame_def_num stamps c = f.frame_number_
    · rw [AddComponent_of_eq f stamps c h]; simp [frame_number, h]
    · rw [AddComponent_of_ne f stamps c h]; simp [frame_number, media_components, h]
  · rw [key]; exact AddComponent_stamp f stamps c

/-- C2 (as stated) fails: a frame with the default frame number 0 and an asset
whose stamp is 0 as well: `AddComponent` takes the "already added" branch and
the asset is not in `media_components()` afterwards. -/
theorem C2_counterexample :
    ¬ ((7 : AssetId) ∈ (AddComponent {} (fun _ => 0) 7).1.media_components) := by
  decide

/-- C2 (amended): after `AddComponent(c)` the asset is in
`media_components()` exactly when its stamp differed from the frame number
before the call or it was in the list already; the stamp equals the frame
number afterwards in every case. -/
theorem C2_AddComponent_holds_iff (f : FrameDef) (stamps : AssetStamps) (c : AssetId) :
    (c ∈ (AddComponent f stamps c).1.media_components
        ↔ (last_frame_def_num stamps c ≠ f.frame_number ∨ c ∈ f.media_components))
      ∧ last_frame_def_num (AddComponent f stamps c).2 c = f.frame_number := by
  refine ⟨?_, AddComponent_stamp f stamps c⟩
  by_cases h : last_frame_def_num stamps c = f.frame_number_
  · rw [AddComponent_of_eq f stamps c h]; simp [frame_number, h]
  · rw [AddComponent_of_ne f stamps c h]; simp [frame_number, media_components, h]

theorem AddComponent_Stamped (f : FrameDef) (stamps : AssetStamps) (c : AssetId)
    (h : Stamped f stamps) :
    Stamped (AddComponent f stamps c).1 (AddComponent f stamps c).2 := by
  by_cases hc : last_frame_def_num stamps c = f.frame_number_
  · rw [AddComponent_of_eq f stamps c hc]; exact h
  · rw [AddComponent_of_ne f stamps c hc]
    obtain ⟨hnd, hst⟩ := h
    have hnot : c ∉ f.media_components_ := fun hmem => hc (hst c hmem)
    refine ⟨?_, ?_⟩
    · show (f.media_components_ ++ [c]).Nodup
      rw [List.nodup_append]
      refine ⟨hnd, List.nodup_singleton c, ?_⟩
      intro a ha hb
      rw [List.mem_singleton] at hb
      exact hnot (hb ▸ ha)
    · intro a ha
      have ha2 : a ∈ f.media_components_ ++ [c] := ha
      show set_last_frame_def_num stamps c f.frame_number_ a = f.frame_number_
      unfold set_last_frame_def_num
      by_cases hac : a = c
      · simp [hac]
      · simp only [hac, if_false]
        rw [List.mem_append, List.mem_singleton] at ha2
        rcases ha2 with h1 | h1
        · exact hst a h1
        · exact absurd h1 hac

theorem AddComponent_stamp_other (g : FrameDef) (stamps : AssetStamps) (c a : AssetId)
    (h : a ≠ c) : (AddComponent g stamps c).2 a = stamps a := by
  by_cases hc : last_frame_def_num stamps c = g.frame_number_
  · rw [AddComponent_of_eq g stamps c hc]
  · rw [AddComponent_of_ne g stamps c hc]
    simp [set_last_frame_def_num, h]

theorem frameSteps_Stamped (steps : List FrameStep) (f : FrameDef) (stamps : AssetStamps)
    (h : Stamped f stamps) (hu : undisturbed f stamps steps = true) :
    Stamped (frameSteps f stamps steps).1 (frameSteps f stamps steps).2 := by
  induction steps generalizing f stamps with
  | nil => exact h
  | cons s rest ih =>
    cases s with
    | add c => exact ih _ _ (AddComponent_Stamped f stamps c h) hu
    | other g c =>
      have hu2 : (decide (g.frame_number_ = f.frame_number_)
          || decide (c ∉ f.media_components_)) = true
          ∧ undisturbed f (AddComponent g stamps c).2 rest = true := by
        have hu1 : ((decide (g.frame_number_ = f.frame_number_)
            || decide (c ∉ f.media_components_))
            && undisturbed f (AddComponent g stamps c).2 rest) = true := hu
        rw [Bool.and_eq_true] at hu1
        exact hu1
      obtain ⟨hside, hrest⟩ := hu2
      refine ih f _ ⟨h.1, ?_⟩ hrest
      intro a ha
      by_cases hac : a = c
      · subst hac
        rw [Bool.or_eq_true, decide_eq_true_eq, decide_eq_true_eq] at hside
        rcases hside with hsame | hnot
        · rw [← hsame]
          exact AddComponent_stamp g stamps a
        · exact absurd ha hnot
      · rw [AddComponent_stamp_other g stamps c a hac]
        exact h.2 a ha

theorem frameSteps_frame_number (steps : List FrameStep) (f : FrameDef)
    (stamps : AssetStamps) :
    (frameSteps f stamps steps).1.frame_number_ = f.frame_number_ := by
  induction steps generalizing f stamps with
  | nil => rfl
  | cons s rest ih =>
    cases s with
    | add c =>
      show (frameSteps (AddComponent f stamps c).1 (AddComponent f stamps c).2 rest).1.frame_number_
        = _
      rw [ih, AddComponent_frame_number]
    | other g c => exact ih f _

/-- C3 (as stated) fails in both of the situations it names.  Asset 0 is added
to frame 1, then to a second frame numbered 2, then to frame 1 again: it is
listed twice by frame 1.  The same happens when `set_frame_number` is called
on the frame between its two `AddComponent` calls. -/
theorem C3_counterexample :
    ¬ (frameSteps { frame_number_ := 1 } (fun _ => 0)
          [.add 0, .other { frame_number_ := 2 } 0, .add 0]).1.media_components.Nodup
      ∧ ¬ (AddComponent
            ((AddComponent { frame_number_ := 1 } (fun _ => 0) 0).1.set_frame_number 2)
            (AddComponent { frame_number_ := 1 } (fun _ => 0) 0).2 0).1.media_components.Nodup := by
  constructor <;> decide

/-- C3 (amended): for a frame that starts with empty `media_components()` and
any finite sequence of `AddComponent` calls on it (assets in any order, any
initial stamps), interleaved with `AddComponent` calls on other frames that
never re-stamp an asset it lists already with a different frame number, and
with no `set_frame_number` on it, no asset occurs more than once in
`media_components()`. -/
theorem C3_AddComponent_at_most_once (f : FrameDef) (stamps : AssetStamps)
    (steps : List FrameStep) (hempty : f.media_components = [])
    (hu : undisturbed f stamps steps = true) :
    (frameSteps f stamps steps).1.media_components.Nodup
      ∧ (frameSteps f stamps steps).1.frame_number = f.frame_number := by
  have h0 : Stamped f stamps := by
    have he : f.media_components_ = [] := hempty
    unfold Stamped
    rw [he]
    exact ⟨List.nodup_nil, fun a ha => absurd ha (List.not_mem_nil a)⟩
  exact ⟨(frameSteps_Stamped steps f stamps h0 hu).1, frameSteps_frame_number steps f stamps⟩

/-- Witness for C3 (amended): a fresh frame numbered 3; calls for assets
1, 2, 1 on it, a frame numbered 4 adding asset 5 and then asset 6, then calls
for 6, 2 and 1 again. -/
theorem C3_AddComponent_at_most_once_witness :
    (frameSteps { frame_number_ := 3 } (fun _ => 0)
        [.add 1, .add 2, .add 1, .other { frame_number_ := 4 } 5,
          .other { frame_number_ := 4 } 6, .add 6, .add 2, .add 1]).1.media_components.Nodup
      ∧ (frameSteps { frame_number_ := 3 } (fun _ => 0)
        [.add 1, .add 2, .add 1, .other { frame_number_ := 4 } 5,
          .other { frame_number_ := 4 } 6, .add 6, .add 2, .add 1]).1.frame_number
          = FrameDef.frame_number { frame_number_ := 3 } :=
  C3_AddComponent_at_most_once { frame_number_ := 3 } (fun _ => 0)
    [.add 1, .add 2, .add 1, .other { frame_number_ := 4 } 5,
      .other { frame_number_ := 4 } 6, .add 6, .add 2, .add 1] rfl (by decide)

theorem access_get (f : FrameDef) (c : FrameAccess) (field : FrameField) :
    get field (access f c).1
      = (match passed c with
          | some (g, val) => if g = field then val else get field f
          | none => get field f) := by
  cases c <;> cases field <;> rfl

theorem lastPassed_cons (field : FrameField) (current : FrameValue) (c : FrameAccess)
    (rest : List FrameAccess) :
    lastPassed field current (c :: rest)
      = (match passed c with
          | some (g, val) =>
            if g = field then lastPassed field val rest else lastPassed field current rest
          | none => lastPassed field current rest) := rfl

theorem accesses_get (calls : List FrameAccess) (f : FrameDef) (field : FrameField) :
    get field (accesses f calls) = lastPassed field (get field f) calls := by
  induction calls generalizing f with
  | nil => rfl
  | cons c rest ih =>
    show get field (accesses (access f c).1 rest) = _
    rw [ih, access_get, lastPassed_cons]
    cases hp : passed c with
    | none => rfl
    | some gv =>
      obtain ⟨g, val⟩ := gv
      by_cases hg : g = field
      · simp [hg]
      · simp [hg]

/-- C11: the `FrameDef` accessors are pure reads and each setter touches one
field.  A getter call returns the field and leaves the frame unchanged.  Each
of the five setters stores the value in its own field, so that its getter
returns it, and leaves every other field as it was: the frame differs from
the old one in that field only, and each of the other fields,
`media_components_` and the create and destroy lists included, is listed as
unchanged.  No setter or getter call touches a field other than the five.
After any sequence of setter and getter calls every getter returns the last
value passed to its matching setter, or what it returned before the sequence
if that setter was not called; for a new frame that is zero, resp. false. -/
theorem C11_accessors_pure_setters_one_field (f : FrameDef) (calls : List FrameAccess)
    (field : FrameField) (n : Int) (b : Bool) :
    (access f (.get field) = (f, some (get field f)))
      ∧ ((f.set_frame_number n).frame_number = n
          ∧ ({ f.set_frame_number n with frame_number_ := f.frame_number_ } : FrameDef) = f
          ∧ (f.set_frame_number n).needs_clear_ = f.needs_clear_
          ∧ (f.set_frame_number n).rendering_ = f.rendering_
          ∧ (f.set_frame_number n).mesh_data_creates_ = f.mesh_data_creates_
          ∧ (f.set_frame_number n).mesh_data_destroys_ = f.mesh_data_destroys_
          ∧ (f.set_frame_number n).media_components_ = f.media_components_
          ∧ (f.set_frame_number n).app_time_millisecs_ = f.app_time_millisecs_
          ∧ (f.set_frame_number n).display_time_millisecs_ = f.display_time_millisecs_
          ∧ (f.set_frame_number n).display_time_elapsed_millisecs_ = f.display_time_elapsed_millisecs_)
      ∧ ((f.set_app_time_millisecs n).real_time = n
          ∧ ({ f.set_app_time_millisecs n with app_time_millisecs_ := f.app_time_millisecs_ } : FrameDef) = f
          ∧ (f.set_app_time_millisecs n).needs_clear_ = f.needs_clear_
          ∧ (f.set_app_time_millisecs n).rendering_ = f.rendering_
          ∧ (f.set_app_time_millisecs n).mesh_data_creates_ = f.mesh_data_creates_
          ∧ (f.set_app_time_millisecs n).mesh_data_destroys_ = f.mesh_data_destroys_
          ∧ (f.set_app_time_millisecs n).media_components_ = f.media_components_
          ∧ (f.set_app_time_millisecs n).display_time_millisecs_ = f.display_time_millisecs_
          ∧ (f.set_app_time_millisecs n).display_time_elapsed_millisecs_ = f.display_time_elapsed_millisecs_
          ∧ (f.set_app_time_millisecs n).frame_number_ = f.frame_number_)
      ∧ ((f.set_display_time_millisecs n).display_time_millisecs = n
          ∧ ({ f.set_display_time_millisecs n with display_time_millisecs_ := f.display_time_millisecs_ } : FrameDef) = f
          ∧ (f.set_display_time_millisecs n).needs_clear_ = f.needs_clear_
          ∧ (f.set_display_time_millisecs n).rendering_ = f.rendering_
          ∧ (f.set_display_time_millisecs n).mesh_data_creates_ = f.mesh_data_creates_
          ∧ (f.set_display_time_millisecs n).mesh_data_destroys_ = f.mesh_data_destroys_
          ∧ (f.set_display_time_millisecs n).media_components_ = f.media_components_
          ∧ (f.set_display_time_millisecs n).app_time_millisecs_ = f.app_time_millisecs_
          ∧ (f.set_display_time_millisecs n).display_time_elapsed_millisecs_ = f.display_time_elapsed_millisecs_
          ∧ (f.set_display_time_millisecs n).frame_number_ = f.frame_number_)
      ∧ ((f.set_display_time_elapsed_millisecs n).display_time_elapsed_millisecs = n
          ∧ ({ f.set_display_time_elapsed_millisecs n with display_time_elapsed_millisecs_ := f.display_time_elapsed_millisecs_ } : FrameDef) = f
          ∧ (f.set_display_time_elapsed_millisecs n).needs_clear_ = f.needs_clear_
          ∧ (f.set_display_time_elapsed_millisecs n).rendering_ = f.rendering_
          ∧ (f.set_display_time_elapsed_millisecs n).mesh_data_creates_ = f.mesh_data_creates_
          ∧ (f.set_display_time_elapsed_millisecs n).mesh_data_destroys_ = f.mesh_data_destroys_
          ∧ (f.set_display_time_elapsed_millisecs n).media_components_ = f.media_components_
          ∧ (f.set_display_time_elapsed_millisecs n).app_time_millisecs_ = f.app_time_millisecs_
          ∧ (f.set_display_time_elapsed_millisecs n).display_time_millisecs_ = f.display_time_millisecs_
          ∧ (f.set_display_time_elapsed_millisecs n).frame_number_ = f.frame_number_)
      ∧ ((f.set_needs_clear b).needs_clear = b
          ∧ ({ f.set_needs_clear b with needs_clear_ := f.needs_clear_ } : FrameDef) = f
          ∧ (f.set_needs_clear b).rendering_ = f.rendering_
          ∧ (f.set_needs_clear b).mesh_data_creates_ = f.mesh_data_creates_
          ∧ (f.set_needs_clear b).mesh_data_destroys_ = f.mesh_data_destroys_
          ∧ (f.set_needs_clear b).media_components_ = f.media_components_
          ∧ (f.set_needs_clear b).app_time_millisecs_ = f.app_time_millisecs_
          ∧ (f.set_needs_clear b).display_time_millisecs_ = f.display_time_millisecs_
          ∧ (f.set_needs_clear b).display_time_elapsed_millisecs_ = f.display_time_elapsed_millisecs_
          ∧ (f.set_needs_clear b).frame_number_ = f.frame_number_)
      ∧ (∀ c : FrameAccess,
          (access f c).1.media_components = f.media_components
          ∧ (access f c).1.mesh_data_creates = f.mesh_data_creates
          ∧ (access f c).1.mesh_data_destroys = f.mesh_data_destroys
          ∧ (access f c).1.rendering_ = f.rendering_
          ∧ ({ (access f c).1 with
                needs_clear_ := f.needs_clear_,
                app_time_millisecs_ := f.app_time_millisecs_,
                display_time_millisecs_ := f.display_time_millisecs_,
                display_time_elapsed_millisecs_ := f.display_time_elapsed_millisecs_,
                frame_number_ := f.frame_number_ } : FrameDef) = f
          ∧ ∀ g : FrameField, (∀ val, passed c ≠ some (g, val)) →
              get g (access f c).1 = get g f)
      ∧ get field (accesses f calls) = lastPassed field (get field f) calls
      ∧ get field (accesses {} calls)
          = lastPassed field
              (match field with
                | .needs_clear => .bool false
                | _ => .int 0) calls := by
  refine ⟨rfl, ⟨rfl, rfl, rfl, rfl, rfl, rfl, rfl, rfl, rfl, rfl⟩,
    ⟨rfl, rfl, rfl, rfl, rfl, rfl, rfl, rfl, rfl, rfl⟩,
    ⟨rfl, rfl, rfl, rfl, rfl, rfl, rfl, rfl, rfl, rfl⟩,
    ⟨rfl, rfl, rfl, rfl, rfl, rfl, rfl, rfl, rfl, rfl⟩,
    ⟨rfl, rfl, rfl, rfl, rfl, rfl, rfl, rfl, rfl, rfl⟩, ?_,
    accesses_get calls f field, ?_⟩
  · intro c
    refine ⟨by cases c <;> rfl, by cases c <;> rfl, by cases c <;> rfl, by cases c <;> rfl,
      by cases c <;> rfl, ?_⟩
    intro g hg
    rw [access_get]
    cases hp : passed c with
    | none => rfl
    | some gv =>
      obtain ⟨g2, val⟩ := gv
      have hne : g2 ≠ g := by
        intro h
        exact hg val (by rw [hp, h])
      simp [hne]
  · rw [accesses_get]
    cases field <;> rfl

end FrameDef

/-! ## Theorems: the graphics-context queue of AppAdapterSDL -/

namespace AppAdapterSDL

theorem pushedDuring_zero (during : List (List Runnable)) : pushedDuring 0 during = [] := by
  simp [pushedDuring]

theorem pushedDuring_succ (n : Nat) (during : List (List Runnable)) :
    pushedDuring (n + 1) during = during.headD [] ++ pushedDuring n during.tail := by
  cases during with
  | nil => simp [pushedDuring]
  | cons d ds => simp [pushedDuring, List.take_succ_cons]

theorem DoPush_strict (a : AppAdapterSDL) (r : Runnable)
    (hs : a.strict_graphics_context_ = true) :
    DoPushGraphicsContextRunnable a r
      = { a with strict_graphics_calls_ := a.strict_graphics_calls_ ++ [r] } := by
  simp [DoPushGraphicsContextRunnable, hs]

theorem DoPush_lenient (a : AppAdapterSDL) (r : Runnable)
    (hs : a.strict_graphics_context_ = false) :
    DoPushGraphicsContextRunnable a r
      = { a with main_thread_runnables := a.main_thread_runnables ++ [r] } := by
  simp [DoPushGraphicsContextRunnable, DoPushMainThreadRunnable, hs]

theorem PushAll_strict (rs : List Runnable) (a : AppAdapterSDL)
    (hs : a.strict_graphics_context_ = true) :
    PushGraphicsContextRunnables a rs
      = { a with strict_graphics_calls_ := a.strict_graphics_calls_ ++ rs } := by
  induction rs generalizing a with
  | nil => simp [PushGraphicsContextRunnables]
  | cons r rs ih =>
    unfold PushGraphicsContextRunnables
    rw [DoPush_strict a r hs, ih]
    · simp
    · exact hs

theorem RunCalls_strict (calls : List Runnable) (a : AppAdapterSDL) (log : DrainLog)
    (during : List (List Runnable)) (hs : a.strict_graphics_context_ = true) :
    RunCalls a log calls during
      = ({ a with strict_graphics_calls_ :=
              a.strict_graphics_calls_ ++ pushedDuring calls.length during },
          { ran := log.ran ++ calls,
            in_context := log.in_context
              ++ List.replicate calls.length (true && a.strict_graphics_allowed_),
            pushed := log.pushed ++ pushedDuring calls.length during }) := by
  induction calls generalizing a log during with
  | nil => simp [RunCalls, pushedDuring_zero]
  | cons c cs ih =>
    unfold RunCalls
    rw [PushAll_strict _ a hs, ih]
    · simp [pushedDuring_succ, InGraphicsContext, hs, List.replicate_succ]
    · exact hs

theorem TryRender_strict (a : AppAdapterSDL) (during : List (List Runnable))
    (hs : a.strict_graphics_context_ = true) (ha : a.strict_graphics_allowed_ = false) :
    TryRender a during
      = ({ a with strict_graphics_calls_ := pushedDuring a.strict_graphics_calls_.length during },
          { ran := a.strict_graphics_calls_,
            in_context := List.replicate a.strict_graphics_calls_.length true,
            pushed := pushedDuring a.strict_graphics_calls_.length during }) := by
  unfold TryRender
  rw [if_pos hs]
  simp only []
  rw [RunCalls_strict]
  · cases a
    simp_all
  · exact hs

theorem TryRender_lenient (a : AppAdapterSDL) (during : List (List Runnable))
    (hs : a.strict_graphics_context_ = false) :
    TryRender a during = (a, {}) := by
  simp [TryRender, hs]

theorem graphicsStep_StrictInv (a0 : AppAdapterSDL) (h : GraphicsHistory) (s : GraphicsStep)
    (hinv : StrictInv a0 h) : StrictInv a0 (graphicsStep h s) := by
  obtain ⟨hs, ha, hm, hq, hc⟩ := hinv
  cases s with
  | push r =>
    simp only [graphicsStep]
    rw [DoPush_strict _ r hs]
    refine ⟨hs, ha, hm, ?_, hc⟩
    show h.drains.flatten ++ (h.adapter.strict_graphics_calls_ ++ [r])
      = a0.strict_graphics_calls_ ++ (h.pushed ++ [r])
    rw [← List.append_assoc, hq, List.append_assoc]
  | render during =>
    simp only [graphicsStep]
    rw [TryRender_strict _ during hs ha]
    refine ⟨hs, ha, hm, ?_, ?_⟩
    · show (h.drains ++ [h.adapter.strict_graphics_calls_]).flatten
          ++ pushedDuring h.adapter.strict_graphics_calls_.length during
        = a0.strict_graphics_calls_
            ++ (h.pushed ++ pushedDuring h.adapter.strict_graphics_calls_.length during)
      rw [← List.append_assoc, ← hq]
      simp
    · intro b hb
      have hb2 : b ∈ h.in_context
          ++ List.replicate h.adapter.strict_graphics_calls_.length true := hb
      rw [List.mem_append] at hb2
      rcases hb2 with h1 | h1
      · exact hc b h1
      · exact (List.mem_replicate.mp h1).2

theorem graphicsSteps_StrictInv (a0 : AppAdapterSDL) (steps : List GraphicsStep)
    (h : GraphicsHistory) (hinv : StrictInv a0 h) : StrictInv a0 (graphicsSteps h steps) := by
  induction steps generalizing h with
  | nil => exact hinv
  | cons s ss ih => exact ih _ (graphicsStep_StrictInv a0 h s hinv)

theorem StrictInv_init (a : AppAdapterSDL) (hs : a.strict_graphics_context_ = true)
    (ha : a.strict_graphics_allowed_ = false) :
    StrictInv a { adapter := a } := by
  refine ⟨hs, ha, rfl, ?_, ?_⟩
  · simp
  · intro b hb
    exact absurd hb (List.not_mem_nil b)

theorem graphicsStep_LenientInv (a0 : AppAdapterSDL) (h : GraphicsHistory) (s : GraphicsStep)
    (hinv : LenientInv a0 h) : LenientInv a0 (graphicsStep h s) := by
  obtain ⟨hs, hq, hm, hd⟩ := hinv
  cases s with
  | push r =>
    simp only [graphicsStep]
    rw [DoPush_lenient _ r hs]
    refine ⟨hs, hq, ?_, hd⟩
    show h.adapter.main_thread_runnables ++ [r] = a0.main_thread_runnables ++ (h.pushed ++ [r])
    rw [hm, List.append_assoc]
  | render during =>
    simp only [graphicsStep]
    rw [TryRender_lenient _ during hs]
    refine ⟨hs, hq, ?_, ?_⟩
    · show h.adapter.main_thread_runnables = a0.main_thread_runnables ++ (h.pushed ++ [])
      rw [hm, List.append_nil]
    · show (h.drains ++ [[]]).flatten = []
      simp [hd]

theorem graphicsSteps_LenientInv (a0 : AppAdapterSDL) (steps : List GraphicsStep)
    (h : GraphicsHistory) (hinv : LenientInv a0 h) : LenientInv a0 (graphicsSteps h steps) := by
  induction steps generalizing h with
  | nil => exact hinv
  | cons s ss ih => exact ih _ (graphicsStep_LenientInv a0 h s hinv)

/-- C4: in strict mode no graphics-context operation is dropped or repeated
and order is kept.  After any sequence of pushes and `TryRender` drains that
starts with an empty pending list, the batches run by the drains,
concatenated, followed by the pending list, are exactly the pushed runnables
in push order.  A further drain runs exactly the pending list (everything
pushed since the previous drain's swap, in order) and leaves pending only
what was pushed while it ran; if nothing is pushed meanwhile, the drains
together have then run every pushed runnable exactly once, in FIFO order. -/
theorem C4_queue_fifo_exactly_once (a : AppAdapterSDL) (steps : List GraphicsStep)
    (hs : a.strict_graphics_context_ = true) (ha : a.strict_graphics_allowed_ = false)
    (he : a.strict_graphics_calls_ = []) :
    (graphicsSteps { adapter := a } steps).drains.flatten
        ++ (graphicsSteps { adapter := a } steps).adapter.strict_graphics_calls_
      = (graphicsSteps { adapter := a } steps).pushed
    ∧ (∀ during : List (List Runnable),
        (graphicsStep (graphicsSteps { adapter := a } steps) (.render during)).drains
          = (graphicsSteps { adapter := a } steps).drains
              ++ [(graphicsSteps { adapter := a } steps).adapter.strict_graphics_calls_]
        ∧ (graphicsStep (graphicsSteps { adapter := a } steps)
              (.render during)).adapter.strict_graphics_calls_
          = pushedDuring
              (graphicsSteps { adapter := a } steps).adapter.strict_graphics_calls_.length during
        ∧ (graphicsStep (graphicsSteps { adapter := a } steps) (.render during)).pushed
          = (graphicsSteps { adapter := a } steps).pushed
              ++ pushedDuring
                (graphicsSteps { adapter := a } steps).adapter.strict_graphics_calls_.length during)
    ∧ (graphicsStep (graphicsSteps { adapter := a } steps) (.render [])).drains.flatten
        = (graphicsSteps { adapter := a } steps).pushed
    ∧ (graphicsStep (graphicsSteps { adapter := a } steps)
          (.render [])).adapter.strict_graphics_calls_ = [] := by
  have hinv := graphicsSteps_StrictInv a steps _ (StrictInv_init a hs ha)
  generalize graphicsSteps { adapter := a } steps = h at hinv
  obtain ⟨hs2, ha2, _, hq, _⟩ := hinv
  rw [he, List.nil_append] at hq
  have hr : ∀ during, graphicsStep h (.render during)
      = { adapter := { h.adapter with
            strict_graphics_calls_ := (pushedDuring h.adapter.strict_graphics_calls_.length during) },
          pushed := h.pushed ++ pushedDuring h.adapter.strict_graphics_calls_.length during,
          drains := h.drains ++ [h.adapter.strict_graphics_calls_],
          in_context := h.in_context
            ++ List.replicate h.adapter.strict_graphics_calls_.length true } := by
    intro during
    simp only [graphicsStep]
    rw [TryRender_strict _ during hs2 ha2]
  refine ⟨hq, ?_, ?_, ?_⟩
  · intro during
    rw [hr during]
    exact ⟨rfl, rfl, rfl⟩
  · rw [hr []]
    show (h.drains ++ [h.adapter.strict_graphics_calls_]).flatten = h.pushed
    rw [← hq]
    simp
  · rw [hr []]
    show pushedDuring h.adapter.strict_graphics_calls_.length [] = []
    simp [pushedDuring]

/-- Witness for C4: a strict adapter; push 1, push 2, a drain during whose
first call 3 is pushed, push 4. -/
theorem C4_queue_fifo_exactly_once_witness :
    (graphicsStep (graphicsSteps { adapter := { strict_graphics_context_ := true } }
        [.push 1, .push 2, .render [[3]], .push 4]) (.render [])).drains.flatten
      = (graphicsSteps { adapter := { strict_graphics_context_ := true } }
          [.push 1, .push 2, .render [[3]], .push 4]).pushed :=
  (C4_queue_fifo_exactly_once { strict_graphics_context_ := true }
    [.push 1, .push 2, .render [[3]], .push 4] rfl rfl rfl).2.2.1

/-- C5: an operation enqueued while a drain is executing is deferred.  For a
strict adapter outside the draw window, a `TryRender` drain runs exactly the
list that was pending at its swap, whatever is pushed while its calls run;
the runnables pushed meanwhile are what is pending when it returns; and the
next drain runs exactly those, in their push order, followed by whatever was
pushed between the two drains. -/
theorem C5_enqueue_during_drain_deferred (a : AppAdapterSDL)
    (during next_during : List (List Runnable)) (between : List Runnable)
    (hs : a.strict_graphics_context_ = true) (ha : a.strict_graphics_allowed_ = false) :
    (TryRender a during).2.ran = a.strict_graphics_calls_
      ∧ (TryRender a during).2.pushed
          = pushedDuring a.strict_graphics_calls_.length during
      ∧ (TryRender a during).1.strict_graphics_calls_
          = pushedDuring a.strict_graphics_calls_.length during
      ∧ (TryRender (TryRender a during).1 next_during).2.ran
          = pushedDuring a.strict_graphics_calls_.length during
      ∧ (TryRender (PushGraphicsContextRunnables (TryRender a during).1 between)
            next_during).2.ran
          = pushedDuring a.strict_graphics_calls_.length during ++ between := by
  have h1 := TryRender_strict a during hs ha
  have hs1 : (TryRender a during).1.strict_graphics_context_ = true := by rw [h1]; exact hs
  have ha1 : (TryRender a during).1.strict_graphics_allowed_ = false := by rw [h1]; exact ha
  have hc1 : (TryRender a during).1.strict_graphics_calls_
      = pushedDuring a.strict_graphics_calls_.length during := by rw [h1]
  refine ⟨by rw [h1], by rw [h1], hc1, ?_, ?_⟩
  · rw [TryRender_strict _ next_during hs1 ha1]
    exact hc1
  · rw [PushAll_strict between _ hs1, TryRender_strict _ next_during (by exact hs1) (by exact ha1)]
    show (TryRender a during).1.strict_graphics_calls_ ++ between = _
    rw [hc1]

/-- Witness for C5: calls 1 and 2 pending; while 1 runs 3 is pushed, while 2
runs 4 and 5 are pushed; 6 is pushed between the drains. -/
theorem C5_enqueue_during_drain_deferred_witness :
    (TryRender { strict_graphics_context_ := true, strict_graphics_calls_ := [1, 2] }
        [[3], [4, 5]]).2.ran = [1, 2]
      ∧ (TryRender (PushGraphicsContextRunnables
            (TryRender { strict_graphics_context_ := true, strict_graphics_calls_ := [1, 2] }
              [[3], [4, 5]]).1 [6]) []).2.ran
          = pushedDuring 2 [[3], [4, 5]] ++ [6] :=
  ⟨(C5_enqueue_during_drain_deferred
      { strict_graphics_context_ := true, strict_graphics_calls_ := [1, 2] }
      [[3], [4, 5]] [] [6] rfl rfl).1,
   (C5_enqueue_during_drain_deferred
      { strict_graphics_context_ := true, strict_graphics_calls_ := [1, 2] }
      [[3], [4, 5]] [] [6] rfl rfl).2.2.2.2⟩

theorem PushAll_lenient (rs : List Runnable) (a : AppAdapterSDL)
    (hs : a.strict_graphics_context_ = false) :
    PushGraphicsContextRunnables a rs
      = { a with main_thread_runnables := a.main_thread_runnables ++ rs } := by
  induction rs generalizing a with
  | nil => simp [PushGraphicsContextRunnables]
  | cons r rs ih =>
    unfold PushGraphicsContextRunnables
    rw [DoPush_lenient a r hs, ih]
    · simp
    · exact hs

/-- C6: strictness mode gates the graphics context.  A newly constructed
adapter has strictness off.  For an adapter outside the draw window and any
sequence of pushes and `TryRender` calls: with strictness off,
`InGraphicsContext()` is the caller being on the main thread, every pushed
call goes to the main-thread queue, whatever the flag, and the pending list
is untouched; with strictness on, `InGraphicsContext()` holds iff the caller
is on the main thread and `strict_graphics_allowed_` is set, the flag is
clear again after every step (so `InGraphicsContext()` is false outside
`TryRender`), every pushed call, pushed outside or inside the draw window, is
appended to `strict_graphics_calls_` and never reaches the main-thread queue,
what is pushed while `TryRender` drains is pending when it returns, no pushed
call is lost (the calls run so far followed by the pending ones are the
pushed ones in order), and every call that was run saw `InGraphicsContext()`
true. -/
theorem C6_strictness_gates_graphics_context (a : AppAdapterSDL) (steps : List GraphicsStep)
    (in_main_thread : Bool) (r : Runnable)
    (ha : a.strict_graphics_allowed_ = false) :
    ({} : AppAdapterSDL).strict_graphics_context_ = false
      ∧ (a.strict_graphics_context_ = false →
          InGraphicsContext a in_main_thread = in_main_thread
          ∧ DoPushGraphicsContextRunnable a r = DoPushMainThreadRunnable a r
          ∧ (graphicsSteps { adapter := a } steps).adapter.strict_graphics_calls_
              = a.strict_graphics_calls_
          ∧ (graphicsSteps { adapter := a } steps).adapter.main_thread_runnables
              = a.main_thread_runnables ++ (graphicsSteps { adapter := a } steps).pushed
          ∧ InGraphicsContext (graphicsSteps { adapter := a } steps).adapter in_main_thread
              = in_main_thread
          ∧ (∀ (allowed : Bool) (rs : List Runnable),
              PushGraphicsContextRunnables { a with strict_graphics_allowed_ := allowed } rs
                = { a with
                    strict_graphics_allowed_ := allowed,
                    main_thread_runnables := a.main_thread_runnables ++ rs }))
      ∧ (a.strict_graphics_context_ = true →
          (∀ allowed : Bool,
            InGraphicsContext { a with strict_graphics_allowed_ := allowed } in_main_thread = true
              ↔ (in_main_thread = true ∧ allowed = true))
          ∧ (DoPushGraphicsContextRunnable a r).strict_graphics_calls_
              = a.strict_graphics_calls_ ++ [r]
          ∧ (graphicsSteps { adapter := a } steps).adapter.main_thread_runnables
              = a.main_thread_runnables
          ∧ (graphicsSteps { adapter := a } steps).adapter.strict_graphics_allowed_ = false
          ∧ InGraphicsContext (graphicsSteps { adapter := a } steps).adapter in_main_thread
              = false
          ∧ (∀ during, (TryRender a during).2.in_context
              = List.replicate a.strict_graphics_calls_.length true)
          ∧ (∀ (allowed : Bool) (rs : List Runnable),
              PushGraphicsContextRunnables { a with strict_graphics_allowed_ := allowed } rs
                = { a with
                    strict_graphics_allowed_ := allowed,
                    strict_graphics_calls_ := a.strict_graphics_calls_ ++ rs })
          ∧ (∀ during,
              (TryRender a during).2.ran = a.strict_graphics_calls_
              ∧ (TryRender a during).2.pushed
                  = pushedDuring a.strict_graphics_calls_.length during
              ∧ (TryRender a during).1.strict_graphics_calls_
                  = pushedDuring a.strict_graphics_calls_.length during
              ∧ (TryRender a during).1.main_thread_runnables = a.main_thread_runnables)
          ∧ (graphicsSteps { adapter := a } steps).drains.flatten
                ++ (graphicsSteps { adapter := a } steps).adapter.strict_graphics_calls_
              = a.strict_graphics_calls_ ++ (graphicsSteps { adapter := a } steps).pushed
          ∧ ∀ b ∈ (graphicsSteps { adapter := a } steps).in_context, b = true) := by
  refine ⟨rfl, ?_, ?_⟩
  · intro hs
    have hinv : LenientInv a (graphicsSteps { adapter := a } steps) :=
      graphicsSteps_LenientInv a steps _ ⟨hs, rfl, by simp, rfl⟩
    obtain ⟨hs2, hq, hm, _⟩ := hinv
    refine ⟨by simp [InGraphicsContext, hs], by simp [DoPushGraphicsContextRunnable, hs],
      hq, hm, by simp [InGraphicsContext, hs2], ?_⟩
    intro allowed rs
    rw [PushAll_lenient]
    exact hs
  · intro hs
    have hinv : StrictInv a (graphicsSteps { adapter := a } steps) :=
      graphicsSteps_StrictInv a steps _ (StrictInv_init a hs ha)
    obtain ⟨hs2, ha2, hm, hq, hc⟩ := hinv
    refine ⟨?_, ?_, hm, ha2, ?_, ?_, ?_, ?_, hq, hc⟩
    · intro allowed
      simp [InGraphicsContext, hs]
    · rw [DoPush_strict a r hs]
    · simp [InGraphicsContext, hs2, ha2]
    · intro during
      rw [TryRender_strict a during hs ha]
    · intro allowed rs
      rw [PushAll_strict]
      exact hs
    · intro during
      rw [TryRender_strict a during hs ha]
      exact ⟨rfl, rfl, rfl, rfl⟩

/-- Witness for C6: a strict adapter; two pushes, a drain during whose first
call 3 is pushed, a push, a drain.  Nothing reached the main-thread queue,
the flag is clear again, `InGraphicsContext()` is false on the main thread
afterwards, and the calls run followed by the pending ones are the pushed
ones, the one pushed inside the draw window included. -/
theorem C6_strictness_gates_graphics_context_witness :
    (graphicsSteps { adapter := { strict_graphics_context_ := true } }
        [.push 1, .push 2, .render [[3]], .push 4, .render []]).adapter.main_thread_runnables
        = ({ strict_graphics_context_ := true } : AppAdapterSDL).main_thread_runnables
      ∧ (graphicsSteps { adapter := { strict_graphics_context_ := true } }
        [.push 1, .push 2, .render [[3]], .push 4, .render []]).adapter.strict_graphics_allowed_
        = false
      ∧ InGraphicsContext (graphicsSteps { adapter := { strict_graphics_context_ := true } }
        [.push 1, .push 2, .render [[3]], .push 4, .render []]).adapter true = false
      ∧ (graphicsSteps { adapter := { strict_graphics_context_ := true } }
          [.push 1, .push 2, .render [[3]], .push 4, .render []]).drains.flatten
            ++ (graphicsSteps { adapter := { strict_graphics_context_ := true } }
              [.push 1, .push 2, .render [[3]], .push 4,
                .render []]).adapter.strict_graphics_calls_
          = ({ strict_graphics_context_ := true } : AppAdapterSDL).strict_graphics_calls_
            ++ (graphicsSteps { adapter := { strict_graphics_context_ := true } }
              [.push 1, .push 2, .render [[3]], .push 4, .render []]).pushed :=
  ⟨((C6_strictness_gates_graphics_context { strict_graphics_context_ := true }
      [.push 1, .push 2, .render [[3]], .push 4, .render []] true 0 rfl).2.2 rfl).2.2.1,
   ((C6_strictness_gates_graphics_context { strict_graphics_context_ := true }
      [.push 1, .push 2, .render [[3]], .push 4, .render []] true 0 rfl).2.2 rfl).2.2.2.1,
   ((C6_strictness_gates_graphics_context { strict_graphics_context_ := true }
      [.push 1, .push 2, .render [[3]], .push 4, .render []] true 0 rfl).2.2 rfl).2.2.2.2.1,
   ((C6_strictness_gates_graphics_context { strict_graphics_context_ := true }
      [.push 1, .push 2, .render [[3]], .push 4, .render []] true 0
      rfl).2.2 rfl).2.2.2.2.2.2.2.2.1⟩

/-! ## Theorems: input devices -/

theorem setSlot_same (v : List (Option JoystickInput)) (i : Nat) (x : Option JoystickInput) :
    (setSlot v i x)[i]? = some x := by
  unfold setSlot
  by_cases h : i < v.length
  · simp [h]
  · have h1 : v.length ≤ i := Nat.le_of_not_lt h
    rw [if_neg h, List.append_assoc, List.getElem?_append_right h1,
      List.getElem?_append_right (by simp)]
    simp

theorem setSlot_other (v : List (Option JoystickInput)) (i j : Nat) (x : Option JoystickInput)
    (hne : j ≠ i) : (setSlot v i x)[j]?.join = v[j]?.join := by
  unfold setSlot
  by_cases h : i < v.length
  · rw [if_pos h, List.getElem?_set_ne (Ne.symm hne)]
  · have h1 : v.length ≤ i := Nat.le_of_not_lt h
    rw [if_neg h, List.append_assoc]
    by_cases hj : j < v.length
    · rw [List.getElem?_append_left hj]
    · have h2 : v.length ≤ j := Nat.le_of_not_lt hj
      rw [List.getElem?_append_right h2, List.getElem?_eq_none h2]
      by_cases hj2 : j - v.length < i - v.length
      · rw [List.getElem?_append_left (by simpa using hj2)]
        simp [List.getElem?_replicate, hj2]
      · have h3 : i - v.length ≤ j - v.length := Nat.le_of_not_lt hj2
        rw [List.getElem?_append_right (by simpa using h3)]
        rw [List.getElem?_eq_none (by simp; omega)]

theorem Get_Add_same (a : AppAdapterSDL) (input : JoystickInput) (i : Nat) :
    GetSDLJoystickInput_ (AddSDLInputDevice_ a input i) i = some input := by
  simp [GetSDLJoystickInput_, AddSDLInputDevice_, setSlot_same]

theorem Get_Add_other (a : AppAdapterSDL) (input : JoystickInput) (i j : Nat) (hne : j ≠ i) :
    GetSDLJoystickInput_ (AddSDLInputDevice_ a input i) j = GetSDLJoystickInput_ a j := by
  simp only [GetSDLJoystickInput_, AddSDLInputDevice_]
  exact setSlot_other _ i j _ hne

theorem Remove_unmapped (a : AppAdapterSDL) (i : Nat) (h : GetSDLJoystickInput_ a i = none) :
    RemoveSDLInputDevice_ a i = a := by
  simp [RemoveSDLInputDevice_, h]

theorem Remove_mapped (a : AppAdapterSDL) (i : Nat) (input : JoystickInput)
    (h : GetSDLJoystickInput_ a i = some input) :
    RemoveSDLInputDevice_ a i
      = { a with
          sdl_joysticks_ := setSlot a.sdl_joysticks_ i none,
          input_device_calls := a.input_device_calls ++ [(false, input)] } := by
  unfold RemoveSDLInputDevice_
  rw [h]

theorem Get_Remove_same (a : AppAdapterSDL) (i : Nat) :
    GetSDLJoystickInput_ (RemoveSDLInputDevice_ a i) i = none := by
  cases h : GetSDLJoystickInput_ a i with
  | none => rw [Remove_unmapped a i h]; exact h
  | some input =>
    rw [Remove_mapped a i input h]
    simp [GetSDLJoystickInput_, setSlot_same]

theorem Get_Remove_other (a : AppAdapterSDL) (i j : Nat) (hne : j ≠ i) :
    GetSDLJoystickInput_ (RemoveSDLInputDevice_ a i) j = GetSDLJoystickInput_ a j := by
  cases h : GetSDLJoystickInput_ a i with
  | none => rw [Remove_unmapped a i h]
  | some input =>
    rw [Remove_mapped a i input h]
    simp only [GetSDLJoystickInput_]
    exact setSlot_other _ i j _ hne

theorem Removed_created (a : AppAdapterSDL) (i : Nat) :
    (RemoveSDLInputDevice_ a i).joystick_inputs_created = a.joystick_inputs_created := by
  cases h : GetSDLJoystickInput_ a i with
  | none => rw [Remove_unmapped a i h]
  | some input => rw [Remove_mapped a i input h]

theorem Added_mapped (a : AppAdapterSDL) (i : Nat) (input : JoystickInput)
    (h : GetSDLJoystickInput_ a i = some input) : OnSDLJoystickAdded_ a i = a := by
  simp [OnSDLJoystickAdded_, h]

theorem Added_unmapped (a : AppAdapterSDL) (i : Nat) (h : GetSDLJoystickInput_ a i = none) :
    OnSDLJoystickAdded_ a i
      = AddSDLInputDevice_ { a with joystick_inputs_created := a.joystick_inputs_created + 1 }
          a.joystick_inputs_created i := by
  simp [OnSDLJoystickAdded_, h]

theorem Get_Added_unmapped (a : AppAdapterSDL) (i : Nat) (h : GetSDLJoystickInput_ a i = none) :
    GetSDLJoystickInput_ (OnSDLJoystickAdded_ a i) i = some a.joystick_inputs_created := by
  rw [Added_unmapped a i h, Get_Add_same]

theorem Added_created_unmapped (a : AppAdapterSDL) (i : Nat)
    (h : GetSDLJoystickInput_ a i = none) :
    (OnSDLJoystickAdded_ a i).joystick_inputs_created = a.joystick_inputs_created + 1 := by
  rw [Added_unmapped a i h]; rfl

theorem Added_JoysticksAllocated (a : AppAdapterSDL) (i : Nat) (hinv : JoysticksAllocated a) :
    JoysticksAllocated (OnSDLJoystickAdded_ a i) := by
  cases h : GetSDLJoystickInput_ a i with
  | some input => rw [Added_mapped a i input h]; exact hinv
  | none =>
    intro j input hj
    rw [Added_created_unmapped a i h]
    by_cases hji : j = i
    · subst hji
      rw [Get_Added_unmapped a j h] at hj
      have heq : a.joystick_inputs_created = input := Option.some.inj hj
      rw [← heq]
      exact Nat.lt_succ_self _
    · rw [Added_unmapped a i h, Get_Add_other _ _ i j hji] at hj
      exact Nat.lt_succ_of_lt (hinv j input hj)

theorem Removed_JoysticksAllocated (a : AppAdapterSDL) (i : Nat) (hinv : JoysticksAllocated a) :
    JoysticksAllocated (OnSDLJoystickRemoved_ a i) := by
  intro j input hj
  unfold OnSDLJoystickRemoved_ at hj ⊢
  rw [Removed_created]
  by_cases hji : j = i
  · subst hji
    rw [Get_Remove_same] at hj
    exact absurd hj (by simp)
  · rw [Get_Remove_other a i j hji] at hj
    exact hinv j input hj

theorem fresh_JoysticksAllocated : JoysticksAllocated {} := by
  intro j input hj
  simp [GetSDLJoystickInput_] at hj

/-- C7: device churn never resurrects a handle.  In a registry whose mapped
handles were all allocated earlier (true of a new adapter and kept by every
attach and detach), for every OS index `i` the events attach(i), detach(i),
attach(i) leave `i` mapped to a handle after the first attach, unmapped after
the detach (lookup gives not-found) and mapped to a different handle after
the second attach; a detach for an unmapped index changes nothing; and a
detach for `i` leaves the lookup of every other index unchanged. -/
theorem C7_device_churn_new_handle (a : AppAdapterSDL) (i : Nat)
    (hinv : JoysticksAllocated a) :
    (∃ first second : JoystickInput,
        GetSDLJoystickInput_ (OnSDLJoystickAdded_ a i) i = some first
        ∧ GetSDLJoystickInput_ (OnSDLJoystickRemoved_ (OnSDLJoystickAdded_ a i) i) i = none
        ∧ GetSDLJoystickInput_
            (OnSDLJoystickAdded_ (OnSDLJoystickRemoved_ (OnSDLJoystickAdded_ a i) i) i) i
            = some second
        ∧ first ≠ second)
      ∧ (∀ j, GetSDLJoystickInput_ a j = none → OnSDLJoystickRemoved_ a j = a)
      ∧ (∀ j, j ≠ i →
          GetSDLJoystickInput_ (OnSDLJoystickRemoved_ a i) j = GetSDLJoystickInput_ a j) := by
  refine ⟨?_, fun j hj => Remove_unmapped a j hj, fun j hj => Get_Remove_other a i j hj⟩
  have hinv1 := Added_JoysticksAllocated a i hinv
  have hfirst : ∃ first, GetSDLJoystickInput_ (OnSDLJoystickAdded_ a i) i = some first := by
    cases h : GetSDLJoystickInput_ a i with
    | some input => exact ⟨input, by rw [Added_mapped a i input h]; exact h⟩
    | none => exact ⟨_, Get_Added_unmapped a i h⟩
  obtain ⟨first, hf⟩ := hfirst
  have hlt : first < (OnSDLJoystickAdded_ a i).joystick_inputs_created := hinv1 i first hf
  have hnone : GetSDLJoystickInput_ (OnSDLJoystickRemoved_ (OnSDLJoystickAdded_ a i) i) i
      = none := Get_Remove_same _ i
  have hcr : (OnSDLJoystickRemoved_ (OnSDLJoystickAdded_ a i) i).joystick_inputs_created
      = (OnSDLJoystickAdded_ a i).joystick_inputs_created := Removed_created _ i
  refine ⟨first, (OnSDLJoystickAdded_ a i).joystick_inputs_created, hf, hnone, ?_, ?_⟩
  · rw [Get_Added_unmapped _ i hnone, hcr]
  · exact Nat.ne_of_lt hlt

/-- Witness for C7: a new adapter and OS index 3. -/
theorem C7_device_churn_new_handle_witness :
    ∃ first second : JoystickInput,
        GetSDLJoystickInput_ (OnSDLJoystickAdded_ {} 3) 3 = some first
        ∧ GetSDLJoystickInput_ (OnSDLJoystickRemoved_ (OnSDLJoystickAdded_ {} 3) 3) 3 = none
        ∧ GetSDLJoystickInput_
            (OnSDLJoystickAdded_ (OnSDLJoystickRemoved_ (OnSDLJoystickAdded_ {} 3) 3) 3) 3
            = some second
        ∧ first ≠ second :=
  (C7_device_churn_new_handle {} 3 fresh_JoysticksAllocated).1

theorem HandleSDLEvent_JoysticksAllocated (debounce now : Int) (a : AppAdapterSDL)
    (e : SDLEvent) (hinv : JoysticksAllocated a) :
    JoysticksAllocated (HandleSDLEvent_ debounce now a e) := by
  cases e with
  | windowClose =>
    unfold HandleSDLEvent_
    by_cases h : now - a.last_windowevent_close_time_ < debounce
    · rw [if_pos h]; exact hinv
    · rw [if_neg h]; exact hinv
  | joyDeviceAdded i => exact Added_JoysticksAllocated a i hinv
  | joyDeviceRemoved i => exact Removed_JoysticksAllocated a i hinv
  | other => exact hinv

/-! ## Theorems: window-close debounce -/

theorem frameInterval_60 : frameInterval 60 = 16666 := by
  decide

theorem pacing_step_sleep (a : AppAdapterSDL) (start overshoot : Int)
    (hfps : a.max_fps_ = 60) (hv : a.vsync_actually_enabled_ = false)
    (h : a.oversleep_ < 16666) :
    SleepUntilNextEventCycle_ a start start overshoot
      = ({ a with oversleep_ := overshoot }, start + (16666 - a.oversleep_) + overshoot) := by
  unfold SleepUntilNextEventCycle_
  simp only [hfps, hv, frameInterval_60, sub_self]
  simp [h]

theorem pacing_step_skip (a : AppAdapterSDL) (start overshoot : Int)
    (hfps : a.max_fps_ = 60) (hv : a.vsync_actually_enabled_ = false)
    (h : ¬ a.oversleep_ < 16666) :
    SleepUntilNextEventCycle_ a start start overshoot
      = ({ a with oversleep_ := a.oversleep_ - 16666 }, start) := by
  unfold SleepUntilNextEventCycle_
  simp only [hfps, hv, frameInterval_60, sub_self]
  simp [h]

theorem pacing_step (a : AppAdapterSDL) (start overshoot g : Int)
    (hfps : a.max_fps_ = 60) (hv : a.vsync_actually_enabled_ = false)
    (ho : 0 ≤ a.oversleep_ ∧ a.oversleep_ ≤ g) (he : 0 ≤ overshoot ∧ overshoot ≤ g) :
    (SleepUntilNextEventCycle_ a start start overshoot).1.max_fps_ = 60
      ∧ (SleepUntilNextEventCycle_ a start start overshoot).1.vsync_actually_enabled_ = false
      ∧ (0 ≤ (SleepUntilNextEventCycle_ a start start overshoot).1.oversleep_
          ∧ (SleepUntilNextEventCycle_ a start start overshoot).1.oversleep_ ≤ g)
      ∧ (SleepUntilNextEventCycle_ a start start overshoot).2
          = start + 16666 - a.oversleep_
            + (SleepUntilNextEventCycle_ a start start overshoot).1.oversleep_ := by
  by_cases h : a.oversleep_ < 16666
  · rw [pacing_step_sleep a start overshoot hfps hv h]
    refine ⟨hfps, hv, he, ?_⟩
    show start + (16666 - a.oversleep_) + overshoot = start + 16666 - a.oversleep_ + overshoot
    omega
  · rw [pacing_step_skip a start overshoot hfps hv h]
    refine ⟨hfps, hv, ⟨?_, ?_⟩, ?_⟩
    · show 0 ≤ a.oversleep_ - 16666
      omega
    · show a.oversleep_ - 16666 ≤ g
      omega
    · show start = start + 16666 - a.oversleep_ + (a.oversleep_ - 16666)
      omega

theorem pacedRun_total (overshoots : List Int) (a : AppAdapterSDL) (start g : Int)
    (hfps : a.max_fps_ = 60) (hv : a.vsync_actually_enabled_ = false)
    (ho : 0 ≤ a.oversleep_ ∧ a.oversleep_ ≤ g)
    (he : ∀ e ∈ overshoots, 0 ≤ e ∧ e ≤ g) :
    (0 ≤ (pacedRun a start overshoots).1.oversleep_
        ∧ (pacedRun a start overshoots).1.oversleep_ ≤ g)
      ∧ (pacedRun a start overshoots).2
          = start + 16666 * (overshoots.length : Int) - a.oversleep_
            + (pacedRun a start overshoots).1.oversleep_ := by
  induction overshoots generalizing a start with
  | nil =>
    refine ⟨ho, ?_⟩
    show start = start + 16666 * ((0 : Nat) : Int) - a.oversleep_ + a.oversleep_
    simp
  | cons e es ih =>
    obtain ⟨h1, h2, h3, h4⟩ :=
      pacing_step a start e g hfps hv ho (he e (List.mem_cons_self e es))
    have hrest : ∀ x ∈ es, 0 ≤ x ∧ x ≤ g := fun x hx => he x (List.mem_cons_of_mem e hx)
    obtain ⟨i1, i2⟩ := ih (SleepUntilNextEventCycle_ a start start e).1
      (SleepUntilNextEventCycle_ a start start e).2 h1 h2 h3 hrest
    refine ⟨i1, ?_⟩
    show (pacedRun (SleepUntilNextEventCycle_ a start start e).1
        (SleepUntilNextEventCycle_ a start start e).2 es).2
      = start + 16666 * ((e :: es).length : Int) - a.oversleep_
        + (pacedRun (SleepUntilNextEventCycle_ a start start e).1
            (SleepUntilNextEventCycle_ a start start e).2 es).1.oversleep_
    rw [i2, List.length_cons]
    push_cast
    linarith [h4]

/-- C9: frame pacing converges to the target.  With `max_fps_` 60, vsync off,
no oversleep carried in and zero processing cost, for every run of 600 pacing
steps whose sleeps each return between 0 and `g` microseconds late, the total
time is 600 target intervals of 16666 µs plus at most `g`: the overshoot of
each sleep is taken off the next one and only the last one remains.  Hence
the average iteration interval is within `g` of the 16666 µs target, and,
for a granularity of at least one microsecond, within `g` of 1/60 s. -/
theorem C9_frame_pacing_converges (a : AppAdapterSDL) (start g : Int) (overshoots : List Int)
    (hfps : a.max_fps_ = 60) (hv : a.vsync_actually_enabled_ = false)
    (ho : a.oversleep_ = 0) (hlen : overshoots.length = 600)
    (he : ∀ e ∈ overshoots, 0 ≤ e ∧ e ≤ g) :
    (600 * frameInterval 60 ≤ (pacedRun a start overshoots).2 - start
        ∧ (pacedRun a start overshoots).2 - start ≤ 600 * frameInterval 60 + g)
      ∧ |((((pacedRun a start overshoots).2 - start : Int) : ℚ)) / 600
            - ((frameInterval 60 : Int) : ℚ)| ≤ (g : ℚ)
      ∧ (1 ≤ g →
          |((((pacedRun a start overshoots).2 - start : Int) : ℚ)) / 600 - 1000000 / 60|
            ≤ (g : ℚ)) := by
  have hg : 0 ≤ g := by
    cases overshoots with
    | nil => simp at hlen
    | cons e es =>
      have := he e (List.mem_cons_self e es)
      omega
  obtain ⟨⟨o1, o2⟩, htot⟩ := pacedRun_total overshoots a start g hfps hv (by rw [ho]; exact ⟨le_refl 0, hg⟩) he
  rw [hlen, ho] at htot
  rw [frameInterval_60]
  generalize (pacedRun a start overshoots).1.oversleep_ = o at o1 o2 htot
  have hd : (pacedRun a start overshoots).2 - start = 600 * 16666 + o := by
    rw [htot]; push_cast; ring
  rw [hd]
  have o1q : (0 : ℚ) ≤ (o : ℚ) := by exact_mod_cast o1
  have o2q : (o : ℚ) ≤ (g : ℚ) := by exact_mod_cast o2
  refine ⟨⟨by omega, by omega⟩, ?_, ?_⟩
  · rw [abs_le]
    push_cast
    constructor <;> linarith
  · intro h1
    have h1q : (1 : ℚ) ≤ (g : ℚ) := by exact_mod_cast h1
    rw [abs_le]
    push_cast
    constructor <;> linarith

/-- Witness for C9: a new adapter (`max_fps_` is 60 by default), start time 0,
granularity 1000 µs and 600 sleeps that each return 1000 µs late. -/
theorem C9_frame_pacing_converges_witness :
    600 * frameInterval 60 ≤ (pacedRun {} 0 (List.replicate 600 1000)).2 - 0
      ∧ (pacedRun {} 0 (List.replicate 600 1000)).2 - 0 ≤ 600 * frameInterval 60 + 1000 :=
  (C9_frame_pacing_converges {} 0 1000 (List.replicate 600 1000) rfl rfl rfl
    (List.length_replicate 600 1000)
    (fun e h => by rw [List.eq_of_mem_replicate h]; decide)).1

end AppAdapterSDL

/-! ## Theorems: PythonContextCall -/

namespace PyWorld

theorem setCall_same (w : PyWorld) (this : CallId) (c : PythonContextCall) :
    (w.setCall this c).calls this = c := by
  simp [setCall]

theorem setCall_other (w : PyWorld) (this other : CallId) (c : PythonContextCall)
    (h : other ≠ this) : (w.setCall this c).calls other = w.calls other := by
  simp [setCall, h]

theorem Run_inert (w : PyWorld) (this : CallId) (args : Option PyObject)
    (callee : PyWorld → PyWorld × Bool)
    (h : (w.calls this).dead_ = true ∨ (w.calls this).context_expired = true) :
    Run w this args callee = w := by
  unfold Run
  rcases h with h | h <;> simp [h]

theorem Run_calls (w : PyWorld) (this : CallId) (args : Option PyObject)
    (callee : PyWorld → PyWorld × Bool) :
    (Run w this args callee).calls = w.calls
      ∨ ∃ w1 : PyWorld, w1.calls = w.calls ∧ (Run w this args callee).calls = (callee w1).1.calls := by
  unfold Run
  by_cases h : ((w.calls this).dead_ || (w.calls this).context_expired) = true
  · left; rw [if_pos h]
  · right
    rw [if_neg h]
    refine ⟨{ w with
        current_context := (w.calls this).context_state_,
        current_call_ := some this,
        py_calls := w.py_calls ++ [((w.calls this).object_, args)] }, rfl, ?_⟩
    simp only []
    split <;> rfl

/-- A property of one object that every member function keeps: it survives
the field updates made by `MarkDead`, by a context expiry and by the
schedule counter. -/
theorem exec_keeps (p : PythonContextCall → Prop)
    (hdead : ∀ c : PythonContextCall, p c → p { c with dead_ := true, object_ := none })
    (hexp : ∀ c : PythonContextCall, p c → p { c with context_expired := true })
    (hcount : ∀ (c : PythonContextCall) (n : Int), p c → p { c with schedule_count_ := n })
    (this : CallId) (script : PyScript) :
    ∀ w : PyWorld, p (w.calls this) → p ((exec script w).1.calls this) := by
  have hset : ∀ (w : PyWorld) (t : CallId) (c : PythonContextCall),
      p (w.calls this) → (t = this → p c) → p ((w.setCall t c).calls this) := by
    intro w t c hw hc
    by_cases ht : this = t
    · subst ht; rw [setCall_same]; exact hc rfl
    · rw [setCall_other _ _ _ _ ht]; exact hw
  have hrun : ∀ (w : PyWorld) (t : CallId) (args : Option PyObject)
      (callee : PyWorld → PyWorld × Bool),
      (∀ w1 : PyWorld, p (w1.calls this) → p ((callee w1).1.calls this)) →
      p (w.calls this) → p ((Run w t args callee).calls this) := by
    intro w t args callee hcallee hw
    rcases Run_calls w t args callee with h | ⟨w1, h1, h2⟩
    · rw [h]; exact hw
    · rw [h2]; exact hcallee w1 (by rw [h1]; exact hw)
  have hsched : ∀ (w : PyWorld) (t : CallId) (args : Option PyObject) (weak : Bool),
      p (w.calls this) →
      p (({ (w.setCall t
            { w.calls t with schedule_count_ := (w.calls t).schedule_count_ + 1 }) with
          event_loop := (w.setCall t
            { w.calls t with schedule_count_ := (w.calls t).schedule_count_ + 1 }).event_loop
              ++ [{ target := t, args := args, weak := weak }] } : PyWorld).calls this) := by
    intro w t args weak hw
    exact hset w t _ hw (fun ht => hcount _ _ (by rw [ht]; exact hw))
  induction script with
  | ret ok => intro w hw; exact hw
  | markDead t rest ih =>
    intro w hw
    exact ih _ (hset w t _ hw (fun ht => hdead _ (by rw [ht]; exact hw)))
  | expireContext t rest ih =>
    intro w hw
    exact ih _ (hset w t _ hw (fun ht => hexp _ (by rw [ht]; exact hw)))
  | run t args body rest ihb ihr =>
    intro w hw
    exact ihr _ (hrun w t args _ ihb hw)
  | schedule kind t args rest ih =>
    intro w hw
    apply ih
    cases kind with
    | schedule => exact hsched w t args false hw
    | scheduleOnce =>
      show p ((ScheduleOnce w t args).calls this)
      unfold ScheduleOnce
      split
      · exact hw
      · exact hsched w t args false hw
    | scheduleWeak => exact hsched w t args true hw
    | scheduleWeakOnce =>
      show p ((ScheduleWeakOnce w t args).calls this)
      unfold ScheduleWeakOnce
      split
      · exact hw
      · exact hsched w t args true hw
  | runQueued alive body rest ihb ihr =>
    intro w hw
    apply ihr
    show p ((RunQueued w alive (exec body)).calls this)
    unfold RunQueued
    split
    · exact hw
    · rename_i q qs _
      simp only []
      split
      · exact hw
      · apply hrun _ _ _ _ ihb
        have hcd : p ((({ w with event_loop := qs } : PyWorld).setCall q.target
            { w.calls q.target with
              schedule_count_ := (w.calls q.target).schedule_count_ - 1 }).calls this) :=
          hset { w with event_loop := qs } q.target _ hw
            (fun ht => hcount _ _ (by rw [ht]; exact hw))
        unfold CountDown
        simp only []
        split
        · exact hcd
        · exact hcd

/-- C10: a dead context call is a no-op.  `MarkDead` sets `dead_` and releases
the held callable.  No operation resets `dead_` (or revives an expired
context): once true for an object it is true after any script of operations,
nested callables included.  So a `Run` on that object after `MarkDead` (or
after its context expired) and any operations in between, with any args and
whatever the callable would do, returns the state unchanged: no
`PyObject_Call` is logged and `current_call_` is what it was. -/
theorem C10_dead_call_is_noop (w : PyWorld) (this : CallId) (between : PyScript)
    (args : Option PyObject) (callee : PyWorld → PyWorld × Bool) :
    ((MarkDead w this).calls this).dead_ = true
      ∧ ((MarkDead w this).calls this).object_ = none
      ∧ ((w.calls this).dead_ = true → ((exec between w).1.calls this).dead_ = true)
      ∧ ((w.calls this).context_expired = true →
          ((exec between w).1.calls this).context_expired = true)
      ∧ Run (exec between (MarkDead w this)).1 this args callee
          = (exec between (MarkDead w this)).1
      ∧ Run (exec between (ExpireContext w this)).1 this args callee
          = (exec between (ExpireContext w this)).1
      ∧ (Run (exec between (MarkDead w this)).1 this args callee).py_calls
          = (exec between (MarkDead w this)).1.py_calls
      ∧ (Run (exec between (MarkDead w this)).1 this args callee).current_call_
          = (exec between (MarkDead w this)).1.current_call_ := by
  have hd : ∀ w0 : PyWorld, (w0.calls this).dead_ = true →
      ((exec between w0).1.calls this).dead_ = true :=
    exec_keeps (fun c => c.dead_ = true) (fun _ _ => rfl) (fun _ h => h) (fun _ _ h => h)
      this between
  have he : ∀ w0 : PyWorld, (w0.calls this).context_expired = true →
      ((exec between w0).1.calls this).context_expired = true :=
    exec_keeps (fun c => c.context_expired = true) (fun _ h => h) (fun _ _ => rfl)
      (fun _ _ h => h) this between
  have h1 : ((MarkDead w this).calls this).dead_ = true := by
    simp [MarkDead, setCall]
  have h2 : ((ExpireContext w this).calls this).context_expired = true := by
    simp [ExpireContext, setCall]
  have hrun := Run_inert (exec between (MarkDead w this)).1 this args callee
    (Or.inl (hd _ h1))
  refine ⟨h1, by simp [MarkDead, setCall], hd w, he w, hrun,
    Run_inert _ this args callee (Or.inr (he _ h2)), by rw [hrun], by rw [hrun]⟩

/-! ### The schedule counter -/

theorem pendingFor_push (w : PyWorld) (q : QueuedCall) (t : CallId) :
    pendingFor { w with event_loop := w.event_loop ++ [q] } t
      = pendingFor w t + (if q.target = t then 1 else 0) := by
  unfold pendingFor
  simp only [List.countP_append, List.countP_cons, List.countP_nil, decide_eq_true_eq]
  simp

theorem pendingFor_pop (w : PyWorld) (q : QueuedCall) (rest : List QueuedCall)
    (h : w.event_loop = q :: rest) (t : CallId) :
    pendingFor w t
      = pendingFor { w with event_loop := rest } t + (if q.target = t then 1 else 0) := by
  unfold pendingFor
  rw [h]
  simp only [List.countP_cons, decide_eq_true_eq]

theorem Counted_congr (w1 w2 : PyWorld) (hc : w2.calls = w1.calls)
    (he : w2.event_loop = w1.event_loop) (ha : w2.asserts_failed = w1.asserts_failed)
    (h : Counted w1) : Counted w2 := by
  refine ⟨?_, by rw [ha]; exact h.2⟩
  intro t
  have := h.1 t
  unfold pendingFor at this ⊢
  rw [hc, he]
  exact this

theorem Counted_setCall (w : PyWorld) (t : CallId) (c : PythonContextCall)
    (hc : c.schedule_count_ = (w.calls t).schedule_count_) (h : Counted w) :
    Counted (w.setCall t c) := by
  refine ⟨?_, h.2⟩
  intro u
  have hu := h.1 u
  have hp : pendingFor (w.setCall t c) u = pendingFor w u := rfl
  rw [hp]
  by_cases hut : u = t
  · subst hut
    rw [setCall_same, hc]
    exact hu
  · rw [setCall_other _ _ _ _ hut]
    exact hu

theorem Counted_push (w : PyWorld) (t : CallId) (args : Option PyObject) (weak : Bool)
    (h : Counted w) :
    Counted { (w.setCall t
        { w.calls t with schedule_count_ := (w.calls t).schedule_count_ + 1 }) with
      event_loop := (w.setCall t
        { w.calls t with schedule_count_ := (w.calls t).schedule_count_ + 1 }).event_loop
          ++ [{ target := t, args := args, weak := weak }] } := by
  refine ⟨?_, h.2⟩
  intro u
  have hu := h.1 u
  rw [pendingFor_push]
  have hp : pendingFor (w.setCall t
      { w.calls t with schedule_count_ := (w.calls t).schedule_count_ + 1 }) u
      = pendingFor w u := rfl
  rw [hp]
  by_cases hut : u = t
  · subst hut
    show ((w.setCall u
      { w.calls u with schedule_count_ := (w.calls u).schedule_count_ + 1 }).calls u).schedule_count_
      = _
    rw [setCall_same]
    simp only [if_true]
    push_cast
    rw [← hu]
  · have htu : ¬ t = u := fun e => hut e.symm
    show ((w.setCall t
      { w.calls t with schedule_count_ := (w.calls t).schedule_count_ + 1 }).calls u).schedule_count_
      = _
    rw [setCall_other _ _ _ _ hut]
    simp only [htu, if_false, Nat.add_zero]
    exact hu

theorem Counted_scheduleBy (w : PyWorld) (kind : ScheduleKind) (t : CallId)
    (args : Option PyObject) (h : Counted w) : Counted (scheduleBy w kind t args) := by
  cases kind with
  | schedule => exact Counted_push w t args false h
  | scheduleOnce =>
    show Counted (ScheduleOnce w t args)
    unfold ScheduleOnce
    split
    · exact h
    · exact Counted_push w t args false h
  | scheduleWeak => exact Counted_push w t args true h
  | scheduleWeakOnce =>
    show Counted (ScheduleWeakOnce w t args)
    unfold ScheduleWeakOnce
    split
    · exact h
    · exact Counted_push w t args true h

theorem Run_live (w : PyWorld) (this : CallId) (args : Option PyObject)
    (callee : PyWorld → PyWorld × Bool)
    (h : ((w.calls this).dead_ || (w.calls this).context_expired) = false) :
    Run w this args callee
      = { (if (callee (RunEntry w this args)).2 then
              ({ (callee (RunEntry w this args)).1 with
                  current_call_ := w.current_call_ } : PyWorld)
            else
              { (callee (RunEntry w this args)).1 with
                current_call_ := w.current_call_,
                errors_printed := (callee (RunEntry w this args)).1.errors_printed ++ [this] })
          with current_context := w.current_context } := by
  unfold Run
  rw [h]
  simp only [Bool.false_eq_true, if_false]
  rfl

theorem Run_core (w : PyWorld) (this : CallId) (args : Option PyObject)
    (callee : PyWorld → PyWorld × Bool) :
    Run w this args callee = w
      ∨ ((Run w this args callee).calls = (callee (RunEntry w this args)).1.calls
          ∧ (Run w this args callee).event_loop
              = (callee (RunEntry w this args)).1.event_loop
          ∧ (Run w this args callee).asserts_failed
              = (callee (RunEntry w this args)).1.asserts_failed) := by
  cases h : ((w.calls this).dead_ || (w.calls this).context_expired) with
  | true =>
    left
    unfold Run
    rw [h]
    rfl
  | false =>
    right
    rw [Run_live w this args callee h]
    refine ⟨?_, ?_, ?_⟩ <;> (simp only []; split <;> rfl)

theorem Counted_Run (w : PyWorld) (this : CallId) (args : Option PyObject)
    (callee : PyWorld → PyWorld × Bool)
    (hcallee : ∀ w1 : PyWorld, Counted w1 → Counted (callee w1).1) (h : Counted w) :
    Counted (Run w this args callee) := by
  rcases Run_core w this args callee with hw | ⟨hc, he, ha⟩
  · rw [hw]; exact h
  · exact Counted_congr _ _ hc he ha
      (hcallee _ (Counted_congr w (RunEntry w this args) rfl rfl rfl h))

theorem CountDown_pending (w : PyWorld) (q : QueuedCall) (rest : List QueuedCall)
    (heq : w.event_loop = q :: rest) (h : Counted w) :
    CountDown { w with event_loop := rest } q.target
      = ({ w with event_loop := rest } : PyWorld).setCall q.target
          { w.calls q.target with
            schedule_count_ := (w.calls q.target).schedule_count_ - 1 } := by
  have hq := h.1 q.target
  rw [pendingFor_pop w q rest heq q.target] at hq
  simp only [if_true] at hq
  push_cast at hq
  unfold CountDown
  simp only []
  rw [setCall_same]
  have hge : (w.calls q.target).schedule_count_ - 1 ≥ 0 := by
    have := Int.natCast_nonneg (pendingFor { w with event_loop := rest } q.target)
    show (0 : Int) ≤ (w.calls q.target).schedule_count_ - 1
    rw [hq]
    linarith
  rw [if_pos hge]

theorem Counted_CountDown (w : PyWorld) (q : QueuedCall) (rest : List QueuedCall)
    (heq : w.event_loop = q :: rest) (h : Counted w) :
    Counted (CountDown { w with event_loop := rest } q.target) := by
  rw [CountDown_pending w q rest heq h]
  refine ⟨?_, h.2⟩
  intro u
  have hu := h.1 u
  rw [pendingFor_pop w q rest heq u] at hu
  have hp : pendingFor (({ w with event_loop := rest } : PyWorld).setCall q.target
      { w.calls q.target with
        schedule_count_ := (w.calls q.target).schedule_count_ - 1 }) u
      = pendingFor { w with event_loop := rest } u := rfl
  rw [hp]
  by_cases hut : u = q.target
  · subst hut
    rw [setCall_same]
    simp only [if_true] at hu
    push_cast at hu
    show (w.calls q.target).schedule_count_ - 1 = _
    rw [hu]
    ring
  · have htu : ¬ q.target = u := fun e => hut e.symm
    rw [setCall_other _ _ _ _ hut]
    simp only [htu, if_false, Nat.add_zero] at hu
    exact hu

theorem Counted_RunQueued (w : PyWorld) (callee : PyWorld → PyWorld × Bool)
    (hcallee : ∀ w1 : PyWorld, Counted w1 → Counted (callee w1).1) (h : Counted w) :
    Counted (RunQueued w true callee) := by
  unfold RunQueued
  split
  · exact h
  · rename_i q rest heq
    simp only [Bool.not_true, Bool.and_false, Bool.false_eq_true, if_false]
    exact Counted_Run _ _ _ _ hcallee (Counted_CountDown w q rest heq h)

theorem exec_Counted (script : PyScript) :
    script.liveRuns = true → ∀ w : PyWorld, Counted w → Counted (exec script w).1 := by
  induction script with
  | ret ok => intro _ w h; exact h
  | markDead t rest ih =>
    intro hl w h
    exact ih hl _ (Counted_setCall w t _ rfl h)
  | expireContext t rest ih =>
    intro hl w h
    exact ih hl _ (Counted_setCall w t _ rfl h)
  | run t args body rest ihb ihr =>
    intro hl w h
    have hl2 : (body.liveRuns && rest.liveRuns) = true := hl
    rw [Bool.and_eq_true] at hl2
    exact ihr hl2.2 _ (Counted_Run w t args _ (ihb hl2.1) h)
  | schedule kind t args rest ih =>
    intro hl w h
    exact ih hl _ (Counted_scheduleBy w kind t args h)
  | runQueued alive body rest ihb ihr =>
    intro hl w h
    have hl2 : (alive && body.liveRuns && rest.liveRuns) = true := hl
    rw [Bool.and_eq_true, Bool.and_eq_true] at hl2
    obtain ⟨⟨ha, hb⟩, hr⟩ := hl2
    subst ha
    exact ihr hr _ (Counted_RunQueued w _ (ihb hb) h)

theorem ScheduleOnces_pending (more : List (Option PyObject)) (w : PyWorld) (this : CallId)
    (h : (w.calls this).schedule_count_ > 0) : ScheduleOnces w this more = w := by
  induction more with
  | nil => rfl
  | cons a rest ih =>
    show ScheduleOnces (ScheduleOnce w this a) this rest = w
    have h1 : ScheduleOnce w this a = w := by
      unfold ScheduleOnce
      rw [if_pos h]
    rw [h1]
    exact ih

theorem ScheduleOnces_first (w : PyWorld) (this : CallId) (args : Option PyObject)
    (more : List (Option PyObject)) (h : (w.calls this).schedule_count_ = 0) :
    ScheduleOnces w this (args :: more) = Schedule w this args := by
  show ScheduleOnces (ScheduleOnce w this args) this more = _
  have h1 : ScheduleOnce w this args = Schedule w this args := by
    unfold ScheduleOnce
    rw [if_neg (by rw [h]; decide)]
  rw [h1]
  apply ScheduleOnces_pending
  show ((w.setCall this
    { w.calls this with schedule_count_ := (w.calls this).schedule_count_ + 1 }).calls
      this).schedule_count_ > 0
  rw [setCall_same]
  show (w.calls this).schedule_count_ + 1 > 0
  rw [h]
  decide

theorem RunQueued_single (w : PyWorld) (this : CallId) (args : Option PyObject)
    (alive : Bool) (callee : PyWorld → PyWorld × Bool)
    (h : (w.calls this).schedule_count_ = 0) (he : w.event_loop = []) :
    RunQueued (Schedule w this args) alive callee = Run w this args callee := by
  have hw : CountDown { Schedule w this args with event_loop := [] } this = w := by
    unfold CountDown Schedule
    simp only [setCall_same]
    have hz : (w.calls this).schedule_count_ + 1 - 1 ≥ 0 := by rw [h]; decide
    rw [if_pos hz]
    cases w with
    | mk calls cur ctx ev py errs af =>
      simp only [setCall] at h he ⊢
      subst he
      congr 1
      funext i
      by_cases hi : i = this
      · subst hi
        simp only [if_true]
        cases hc : calls i with
        | mk d o cs ce sc =>
          rw [hc] at h
          simp only at h
          subst h
          rfl
      · simp [hi]
  unfold RunQueued
  have hev : (Schedule w this args).event_loop
      = [{ target := this, args := args, weak := false }] := by
    show w.event_loop ++ _ = _
    rw [he]
    rfl
  rw [hev]
  simp only [Bool.false_and, Bool.false_eq_true, if_false]
  rw [hw]

theorem Run_event_loop_idle (w : PyWorld) (this : CallId) (args : Option PyObject)
    (ok : Bool) : (Run w this args (fun x => (x, ok))).event_loop = w.event_loop := by
  rcases Run_core w this args (fun x => (x, ok)) with h | ⟨_, h, _⟩
  · rw [h]
  · rw [h]; rfl

/-- C12: `schedule_count_` counts the pending scheduled runs.  Start with every
counter 0, an empty event loop and no failed assertion, and let any script
run in which every queued call is executed on an object that still exists
(any interleaving of the four `Schedule` members with or without args, of
executing the next queued call, of direct runs and `MarkDead`, nested inside
callables too).  In the state reached, the counter of every object equals
the number of its queued calls not yet executed, no assertion
`schedule_count_ >= 0` has failed and every counter is non-negative; each
`Once` member pushes a call exactly when none is pending for the object; and
any number (one or more) of consecutive `ScheduleOnce` calls from the start
leaves exactly one call queued, whose execution is one `Run` with the args of
the first call, after which nothing is left to execute. -/
theorem C12_schedule_count_counts_pending (w : PyWorld) (script : PyScript) (this : CallId)
    (args : Option PyObject) (more : List (Option PyObject)) (alive ok : Bool)
    (callee : PyWorld → PyWorld × Bool)
    (hcount : ∀ t, (w.calls t).schedule_count_ = 0) (hqueue : w.event_loop = [])
    (hassert : w.asserts_failed = 0) (hlive : script.liveRuns = true) :
    (∀ t, ((exec script w).1.calls t).schedule_count_ = (pendingFor (exec script w).1 t : Int))
      ∧ (exec script w).1.asserts_failed = 0
      ∧ (∀ t, 0 ≤ ((exec script w).1.calls t).schedule_count_)
      ∧ (ScheduleOnce (exec script w).1 this args).event_loop
          = (if pendingFor (exec script w).1 this = 0 then
              (exec script w).1.event_loop ++ [{ target := this, args := args, weak := false }]
            else (exec script w).1.event_loop)
      ∧ (ScheduleWeakOnce (exec script w).1 this args).event_loop
          = (if pendingFor (exec script w).1 this = 0 then
              (exec script w).1.event_loop ++ [{ target := this, args := args, weak := true }]
            else (exec script w).1.event_loop)
      ∧ (ScheduleOnces w this (args :: more)).event_loop
          = [{ target := this, args := args, weak := false }]
      ∧ RunQueued (ScheduleOnces w this (args :: more)) alive callee = Run w this args callee
      ∧ RunQueued (RunQueued (ScheduleOnces w this (args :: more)) alive (fun x => (x, ok)))
            alive callee
          = RunQueued (ScheduleOnces w this (args :: more)) alive (fun x => (x, ok)) := by
  have h0 : Counted w := by
    refine ⟨?_, hassert⟩
    intro t
    rw [hcount t]
    unfold pendingFor
    rw [hqueue]
    rfl
  have hinv := exec_Counted script hlive w h0
  generalize (exec script w).1 = w1 at hinv
  have honce : ∀ weak : Bool,
      (if (w1.calls this).schedule_count_ > 0 then w1.event_loop
        else w1.event_loop ++ [{ target := this, args := args, weak := weak }])
      = (if pendingFor w1 this = 0 then
          w1.event_loop ++ [{ target := this, args := args, weak := weak }]
        else w1.event_loop) := by
    intro weak
    have hc := hinv.1 this
    by_cases hp : pendingFor w1 this = 0
    · rw [hp] at hc
      rw [if_pos hp, if_neg (by rw [hc]; decide)]
    · have hpos : (w1.calls this).schedule_count_ > 0 := by
        rw [hc]
        exact_mod_cast Nat.pos_of_ne_zero hp
      rw [if_neg hp, if_pos hpos]
  have hfirst := ScheduleOnces_first w this args more (hcount this)
  have hsingle : ∀ c : PyWorld → PyWorld × Bool,
      RunQueued (ScheduleOnces w this (args :: more)) alive c = Run w this args c := by
    intro c
    rw [hfirst]
    exact RunQueued_single w this args alive c (hcount this) hqueue
  refine ⟨hinv.1, hinv.2, ?_, ?_, ?_, ?_, hsingle callee, ?_⟩
  · intro t
    rw [hinv.1 t]
    exact Int.natCast_nonneg _
  · rw [← honce false]
    unfold ScheduleOnce
    split <;> rfl
  · rw [← honce true]
    unfold ScheduleWeakOnce
    split <;> rfl
  · rw [hfirst]
    show w.event_loop ++ _ = _
    rw [hqueue]
    rfl
  · rw [hsingle]
    have he : (Run w this args (fun x => (x, ok))).event_loop = [] := by
      rw [Run_event_loop_idle, hqueue]
    unfold RunQueued
    rw [he]

/-- Witness for C12: objects 1 and 2; two `Schedule` and a `ScheduleOnce` on 1,
a `ScheduleWeak` on 2, then two queued calls executed, the first of which
schedules object 2 once more from inside its callable. -/
theorem C12_schedule_count_counts_pending_witness :
    ((exec
        (.schedule .schedule 1 none (.schedule .schedule 1 (some 9)
          (.schedule .scheduleOnce 1 none (.schedule .scheduleWeak 2 none
            (.runQueued true (.schedule .scheduleWeakOnce 2 (some 4) (.ret true))
              (.runQueued true (.ret false) (.ret true)))))))
        { calls := fun _ => { object_ := some 7 } }).1.calls 2).schedule_count_
        = (pendingFor (exec
            (.schedule .schedule 1 none (.schedule .schedule 1 (some 9)
              (.schedule .scheduleOnce 1 none (.schedule .scheduleWeak 2 none
                (.runQueued true (.schedule .scheduleWeakOnce 2 (some 4) (.ret true))
                  (.runQueued true (.ret false) (.ret true)))))))
            { calls := fun _ => { object_ := some 7 } }).1 2 : Int)
      ∧ (ScheduleOnces { calls := fun _ => { object_ := some 7 } } 1
          [none, some 5, none]).event_loop
          = [{ target := 1, args := none, weak := false }] :=
  ⟨(C12_schedule_count_counts_pending { calls := fun _ => { object_ := some 7 } }
      (.schedule .schedule 1 none (.schedule .schedule 1 (some 9)
        (.schedule .scheduleOnce 1 none (.schedule .scheduleWeak 2 none
          (.runQueued true (.schedule .scheduleWeakOnce 2 (some 4) (.ret true))
            (.runQueued true (.ret false) (.ret true)))))))
      1 none [some 5, none] true true (fun x => (x, true))
      (fun _ => rfl) rfl rfl rfl).1 2,
   (C12_schedule_count_counts_pending { calls := fun _ => { object_ := some 7 } }
      (.ret true) 1 none [some 5, none] true true (fun x => (x, true))
      (fun _ => rfl) rfl rfl rfl).2.2.2.2.2.1⟩

/-! ### The stack discipline of `current_call_` -/

theorem Run_current_call (w : PyWorld) (this : CallId) (args : Option PyObject)
    (callee : PyWorld → PyWorld × Bool) :
    (Run w this args callee).current_call_ = w.current_call_ := by
  cases h : ((w.calls this).dead_ || (w.calls this).context_expired) with
  | true =>
    unfold Run
    rw [h]
    rfl
  | false =>
    rw [Run_live w this args callee h]
    simp only []
    split <;> rfl

theorem CountDown_current_call (w : PyWorld) (this : CallId) :
    (CountDown w this).current_call_ = w.current_call_ := by
  unfold CountDown
  simp only []
  split <;> rfl

theorem scheduleBy_current_call (w : PyWorld) (kind : ScheduleKind) (t : CallId)
    (args : Option PyObject) :
    (scheduleBy w kind t args).current_call_ = w.current_call_ := by
  cases kind with
  | schedule => rfl
  | scheduleOnce =>
    show (ScheduleOnce w t args).current_call_ = _
    unfold ScheduleOnce
    split <;> rfl
  | scheduleWeak => rfl
  | scheduleWeakOnce =>
    show (ScheduleWeakOnce w t args).current_call_ = _
    unfold ScheduleWeakOnce
    split <;> rfl

theorem RunQueued_current_call (w : PyWorld) (alive : Bool)
    (callee : PyWorld → PyWorld × Bool) :
    (RunQueued w alive callee).current_call_ = w.current_call_ := by
  unfold RunQueued
  split
  · rfl
  · simp only []
    split
    · rfl
    · rw [Run_current_call, CountDown_current_call]

theorem exec_current_call (script : PyScript) :
    ∀ w : PyWorld, (exec script w).1.current_call_ = w.current_call_ := by
  induction script with
  | ret ok => intro w; rfl
  | markDead t rest ih => intro w; exact ih _
  | expireContext t rest ih => intro w; exact ih _
  | run t args body rest _ ihr =>
    intro w
    exact (ihr _).trans (Run_current_call w t args _)
  | schedule kind t args rest ih =>
    intro w
    exact (ih _).trans (scheduleBy_current_call w kind t args)
  | runQueued alive body rest _ ihr =>
    intro w
    exact (ihr _).trans (RunQueued_current_call w alive _)

theorem samples_agree (script : PyScript) :
    ∀ (running : Option CallId) (w : PyWorld), w.current_call_ = running →
      ∀ x ∈ samples running script w, x.current_call_ = x.running := by
  induction script with
  | ret ok =>
    intro running w hw x hx
    simp only [samples, List.mem_singleton] at hx
    rw [hx]; exact hw
  | markDead t rest ih =>
    intro running w hw x hx
    simp only [samples, List.mem_cons] at hx
    rcases hx with hx | hx
    · rw [hx]; exact hw
    · exact ih running (MarkDead w t) hw x hx
  | expireContext t rest ih =>
    intro running w hw x hx
    simp only [samples, List.mem_cons] at hx
    rcases hx with hx | hx
    · rw [hx]; exact hw
    · exact ih running (ExpireContext w t) hw x hx
  | run t args body rest ihb ihr =>
    intro running w hw x hx
    simp only [samples, List.mem_cons, List.mem_append] at hx
    rcases hx with hx | hx | hx
    · rw [hx]; exact hw
    · split at hx
      · exact absurd hx (List.not_mem_nil x)
      · exact ihb (some t) _ rfl x hx
    · exact ihr running _ ((Run_current_call w t args _).trans hw) x hx
  | schedule kind t args rest ih =>
    intro running w hw x hx
    simp only [samples, List.mem_cons] at hx
    rcases hx with hx | hx
    · rw [hx]; exact hw
    · exact ih running _ ((scheduleBy_current_call w kind t args).trans hw) x hx
  | runQueued alive body rest ihb ihr =>
    intro running w hw x hx
    simp only [samples, List.mem_cons, List.mem_append] at hx
    rcases hx with hx | hx | hx
    · rw [hx]; exact hw
    · split at hx
      · exact absurd hx (List.not_mem_nil x)
      · split at hx
        · exact absurd hx (List.not_mem_nil x)
        · split at hx
          · exact absurd hx (List.not_mem_nil x)
          · rename_i q qs _ _ _
            exact ihb (some q.target) _ rfl x hx
    · exact ihr running _ ((RunQueued_current_call w alive _).trans hw) x hx

/-- C13: `Run` keeps a stack discipline on the static `current_call_`.  When
`Run` returns, `current_call_` has the value it had on entry, whatever the
callable did: on the early return of a dead or expired call (nothing
changes at all), when the callable returned a result, and when it raised, in
which case the error is logged as printed and `Run` returns all the same.
The callable is invoked in a state where `current_call_` is this object, and
at every point of its execution, before each of its operations and where it
returns or raises, `current_call_` is the object whose `Run` invoked the
callable executing there: this holds through `Run` calls nested to any depth
(directly or through executing queued calls), each of which restores the
value on return. -/
theorem C13_run_restores_current_call (w : PyWorld) (this : CallId) (args : Option PyObject)
    (callee : PyWorld → PyWorld × Bool) (body script : PyScript) :
    (Run w this args callee).current_call_ = w.current_call_
      ∧ (RunEntry w this args).current_call_ = some this
      ∧ Run w this args callee
          = (if (w.calls this).dead_ || (w.calls this).context_expired then w
            else if (callee (RunEntry w this args)).2 then
              { (callee (RunEntry w this args)).1 with
                current_call_ := w.current_call_,
                current_context := w.current_context }
            else
              { (callee (RunEntry w this args)).1 with
                current_call_ := w.current_call_,
                current_context := w.current_context,
                errors_printed := (callee (RunEntry w this args)).1.errors_printed ++ [this] })
      ∧ (∀ x ∈ samples (some this) body (RunEntry w this args), x.current_call_ = x.running)
      ∧ (exec body (RunEntry w this args)).1.current_call_ = some this
      ∧ (∀ x ∈ samples w.current_call_ script w, x.current_call_ = x.running)
      ∧ (exec script w).1.current_call_ = w.current_call_ := by
  refine ⟨Run_current_call w this args callee, rfl, ?_,
    samples_agree body (some this) _ rfl, exec_current_call body _,
    samples_agree script _ w rfl, exec_current_call script w⟩
  cases h : ((w.calls this).dead_ || (w.calls this).context_expired) with
  | true =>
    unfold Run
    rw [h]
    rfl
  | false =>
    rw [Run_live w this args callee h]
    simp only [Bool.false_eq_true, if_false]
    split <;> rfl

/-- The samples of a concrete nested execution: the callable of object 1 runs
object 2, whose callable marks 1 dead and raises; back in the callable of 1 a
`Run` of the now dead 1 is a no-op; then the logic thread runs 1 again. -/
theorem samples_nested_example :
    samples none
        (.run 1 none
          (.run 2 (some 5) (.markDead 1 (.ret false)) (.run 1 none (.ret true) (.ret true)))
          (.run 1 none (.ret true) (.ret true)))
        { calls := fun _ => { object_ := some 7 } }
      = [⟨none, none⟩, ⟨some 1, some 1⟩, ⟨some 2, some 2⟩, ⟨some 2, some 2⟩,
          ⟨some 1, some 1⟩, ⟨some 1, some 1⟩, ⟨none, none⟩, ⟨none, none⟩] := by
  decide

end PyWorld

end Ballistica
